import Mathlib

/-!
Doctor-Validation-Agent-System: the front-end views.

A shallow embedding of the React views under `frontend/src/pages` and the
properties of their rendering and event handlers.

* JavaScript values that reach the views through JSON are `JsVal`.
* A handler that talks to the backend is a function of the answers the backend
  gives, returning the effects it performs in order.
-/

namespace DoctorValidation

/-! ## JavaScript values -/

/-- A JavaScript string, one `Char` per UTF-16 code unit (text outside the Basic
Multilingual Plane, which takes two units per character, is not represented). -/
abbrev JsString := List Char

/-- The JavaScript values a JSON answer can hold. Numbers are modelled by the integers (JSON
has no NaN and no infinities, and `-0` behaves as `0` under `===` and truthiness); objects
and arrays are known by their identity only, which is all that `===` and truthiness look
at. -/
inductive JsVal where
  | undefined
  | null
  | bool (b : Bool)
  | num (n : Int)
  | str (s : JsString)
  | ref (addr : Nat)
  deriving DecidableEq, Repr

namespace JsVal

/-- The operator `a === b`: no coercion; objects are equal when they are the same object. -/
def strictEq : JsVal → JsVal → Bool
  | undefined, undefined => true
  | null, null => true
  | bool a, bool b => a == b
  | num a, num b => a == b
  | str a, str b => a == b
  | ref a, ref b => a == b
  | _, _ => false

/-- The operator `a !== b`. -/
def strictNe (a b : JsVal) : Bool := !(strictEq a b)

/-- ToBoolean: `undefined`, `null`, `false`, `0` and `''` are falsy, all else is truthy. -/
def truthy : JsVal → Bool
  | undefined => false
  | null => false
  | bool b => b
  | num n => n != 0
  | str s => !s.isEmpty
  | ref _ => true

/-- The operator `a && b`. -/
def and (a b : JsVal) : JsVal := if a.truthy then b else a

/-- The operator `a || b`. -/
def or (a b : JsVal) : JsVal := if a.truthy then a else b

end JsVal

/-! ## Comparison.jsx -/

/-- The six fields of a panel; a field the object lacks reads as `undefined`. -/
structure FieldSet where
  name : JsVal
  phone : JsVal
  address : JsVal
  npi : JsVal
  education : JsVal
  specialties : JsVal
  deriving DecidableEq, Repr

/-- The keys `DataPanel` reads. -/
inductive FieldKey where
  | name | phone | address | npi | education | specialties
  deriving DecidableEq, Repr

/-- Property access `data[key]`. -/
def FieldSet.get (data : FieldSet) : FieldKey → JsVal
  | .name => data.name
  | .phone => data.phone
  | .address => data.address
  | .npi => data.npi
  | .education => data.education
  | .specialties => data.specialties

/-- The answer of `GET /api/validation/:id`. -/
structure ComparisonRecord where
  original : FieldSet
  validated : FieldSet
  deriving DecidableEq, Repr

/-- One rendered field of a panel: its label, the border and background of the value box,
and the box's content. -/
structure Cell where
  key : FieldKey
  label : String
  border : String
  background : String
  content : JsVal
  deriving DecidableEq, Repr

/-- The `fields` table of `DataPanel`. -/
def fields : List (FieldKey × String) :=
  [(.name, "Name"), (.phone, "Phone Number"), (.address, "Address"),
   (.npi, "NPI Number"), (.education, "Education"), (.specialties, "Specialties")]

/-- The text shown for a falsy value, as the source file spells it. -/
def placeholder : JsString := "â€”".toList

/-- The body of the `fields.map` callback of `DataPanel`. -/
def renderField (data differences : FieldSet) (highlight : JsVal) (f : FieldKey × String) : Cell :=
  let isDiff := JsVal.bool ((data.get f.1).strictNe (differences.get f.1))
  { key := f.1
    label := f.2
    border := "2px solid " ++ (if (isDiff.and highlight).truthy then "#ef4444" else "#e5e7eb")
    background := if (isDiff.and highlight).truthy then "#fef2f2" else "white"
    content := (data.get f.1).or (.str placeholder) }

/-- The component `DataPanel({ data, differences, highlight })`. -/
def DataPanel (data differences : FieldSet) (highlight : JsVal) : List Cell :=
  fields.map (renderField data differences highlight)

/-- The two panels of the `Comparison` view. -/
structure ComparisonView where
  originalPanel : List Cell
  validatedPanel : List Cell
  deriving DecidableEq, Repr

/-- The render of `Comparison`: `none` is the loading text shown while `data` is null;
the original panel is rendered without the `highlight` prop, the validated one with it. -/
def Comparison (data : Option ComparisonRecord) : Option ComparisonView :=
  match data with
  | none => none
  | some d =>
    some { originalPanel := DataPanel d.original d.validated .undefined
           validatedPanel := DataPanel d.validated d.original (.bool true) }

/-- The highlight styling of a value box: the red border on the pale red background. -/
def Cell.highlighted (c : Cell) : Prop :=
  c.border = "2px solid #ef4444" ∧ c.background = "#fef2f2"

/-- The plain styling of a value box: the grey border on white. -/
def Cell.plain (c : Cell) : Prop :=
  c.border = "2px solid #e5e7eb" ∧ c.background = "white"

instance (c : Cell) : Decidable c.highlighted := by
  unfold Cell.highlighted; infer_instance

instance (c : Cell) : Decidable c.plain := by
  unfold Cell.plain; infer_instance

/-! ## ValidationStatus.jsx: status badge -/

/-- String literals of the source as `JsString`s. -/
def lit (s : String) : JsString := s.toList

/-- The function `getStatusClass(status)`. -/
def getStatusClass (status : JsVal) : String :=
  if status.strictEq (.str (lit "verified")) then "status-validated"
  else if status.strictEq (.str (lit "updated details")) then "status-progress"
  else if status.strictEq (.str (lit "human verification needed")) then "status-failed"
  else "status-pending"

/-- The method `s.split(sep)` for a separator of one code unit: the pieces between the
separators, empty pieces kept, one piece for a string without separator. -/
def split (sep : Char) : JsString → List JsString
  | [] => [[]]
  | c :: cs =>
    if c = sep then [] :: split sep cs
    else
      match split sep cs with
      | [] => [[c]]
      | w :: ws => (c :: w) :: ws

/-- The method `ws.join(sep)`. -/
def join (sep : JsString) : List JsString → JsString
  | [] => []
  | [w] => w
  | w :: ws => w ++ sep ++ join sep ws

/-- The method `s.charAt(i)`: the one-unit string at index `i`, or `''` past the end. -/
def charAt (s : JsString) (i : Nat) : JsString :=
  match s.get? i with
  | some c => [c]
  | none => []

/-- The method `s.slice(i)` for `i ≥ 0`. -/
def sliceFrom (s : JsString) (i : Nat) : JsString := s.drop i

/-- The method `s.toUpperCase()`, over the platform's case mapping `upper` of one code unit
(a unit may map to several, as `ß` does). -/
def toUpperCase (upper : Char → JsString) (s : JsString) : JsString := s.flatMap upper

/-- The case mapping on ASCII, where it is `a-z ↦ A-Z` and the identity elsewhere; used to
evaluate examples written in ASCII. -/
def asciiUpper (c : Char) : JsString := [c.toUpper]

/-- What a call can raise. -/
inductive JsError where
  | typeError
  | rejected
  deriving DecidableEq, Repr

deriving instance DecidableEq for Except

/-- The function `formatStatus(status)`. A truthy status that is no string has no `split`
method, and the call raises a TypeError. -/
def formatStatus (upper : Char → JsString) (status : JsVal) : Except JsError JsString :=
  if !status.truthy then .ok (lit "Pending")
  else
    match status with
    | .str s =>
      .ok (join (lit " ")
        ((split ' ' s).map (fun word => toUpperCase upper (charAt word 0) ++ sliceFrom word 1)))
    | _ => .error .typeError

/-- The three statuses the badge knows. -/
def knownStatuses : List JsVal :=
  [.str (lit "verified"), .str (lit "updated details"), .str (lit "human verification needed")]

/-- Word capitalisation read off the description, one unit at a time: a unit that opens the
string or follows a space is upper-cased unless it is a space itself; every other unit,
spaces included, is copied. `atStart` tells whether the next unit opens a word. -/
def capitalizeWords (upper : Char → JsString) : Bool → JsString → JsString
  | _, [] => []
  | atStart, c :: cs =>
    if c = ' ' then ' ' :: capitalizeWords upper true cs
    else (if atStart then upper c else [c]) ++ capitalizeWords upper false cs

/-- One word with its first unit upper-cased and the rest unchanged. -/
def capitalizeWord (upper : Char → JsString) : JsString → JsString
  | [] => []
  | c :: cs => upper c ++ cs

/-! ## ValidationStatus.jsx: the progress poller -/

/-- The answer of `GET /api/validation/progress/:session`. -/
structure ProgressSnapshot where
  status : JsVal
  status_message : JsVal
  current_hospital : JsVal
  progress_percentage : JsVal
  completed_hospitals : JsVal
  total_hospitals : JsVal
  verified_count : JsVal
  updated_count : JsVal
  needs_review_count : JsVal
  total_records : JsVal
  deriving DecidableEq, Repr

/-- What the handlers of the status view do, in the order they do it. `loadProviders` is a
call of `loadProviders()`, the refresh of the provider list; `setTimeout d` is
`setTimeout(pollProgress, d)`. -/
inductive Effect where
  | axiosGet (url : JsString)
  | setValidationProgress (data : ProgressSnapshot)
  | setIsPolling (b : Bool)
  | setTimeout (delay : Nat)
  | loadProviders
  | consoleError (msg : String)
  | alert (msg : String)
  deriving DecidableEq, Repr

/-- One run of `pollProgress`, given the answer `res` of its progress fetch
(`.error` when the awaited request rejects). -/
def pollProgress (sessionId : JsString) (res : Except JsError ProgressSnapshot) : List Effect :=
  .axiosGet (lit "/api/validation/progress/" ++ sessionId) ::
    match res with
    | .ok data =>
      .setValidationProgress data ::
        (if data.status.strictEq (.str (lit "in_progress")) then
          [.setTimeout 2000, .loadProviders]
        else
          [.setIsPolling false, .loadProviders])
    | .error _ => [.consoleError "Failed to fetch progress:", .setIsPolling false]

/-- The poller's part of the component state: the two `useState` cells, the number of
calls of `pollProgress` that are due (the one made on mount and those set by a timer),
and everything done so far, oldest first. -/
structure PollState where
  validationProgress : Option ProgressSnapshot
  isPolling : Bool
  due : Nat
  trace : List Effect
  deriving DecidableEq, Repr

/-- The state of a freshly mounted view: `useState(null)`, `useState(false)`. -/
def PollState.init : PollState :=
  { validationProgress := none, isPolling := false, due := 0, trace := [] }

/-- The change one effect makes. -/
def PollState.step (st : PollState) (e : Effect) : PollState :=
  match e with
  | .setValidationProgress data =>
    { st with validationProgress := some data, trace := st.trace ++ [e] }
  | .setIsPolling b => { st with isPolling := b, trace := st.trace ++ [e] }
  | .setTimeout _ => { st with due := st.due + 1, trace := st.trace ++ [e] }
  | _ => { st with trace := st.trace ++ [e] }

/-- The changes a list of effects makes, in order. -/
def PollState.perform (st : PollState) (es : List Effect) : PollState :=
  es.foldl PollState.step st

/-- The polling effect `useEffect(() => { if (sessionId) { setIsPolling(true); pollProgress() } })`;
`sessionId` is `searchParams.get('session')`, a string or null. -/
def mountPolling (sessionId : Option JsString) (st : PollState) : PollState :=
  match sessionId with
  | some id =>
    if (JsVal.str id).truthy then
      { st.perform [.setIsPolling true] with due := st.due + 1 }
    else st
  | none => st

/-- The ticks that follow: while a call of `pollProgress` is due it runs with the next
answer of the progress endpoint. The run ends when no call is due, or when the endpoint
gives no further answer. -/
def runTicks (sessionId : JsString) : List (Except JsError ProgressSnapshot) → PollState → PollState
  | [], st => st
  | res :: rest, st =>
    if st.due = 0 then st
    else runTicks sessionId rest
      (({ st with due := st.due - 1 }).perform (pollProgress sessionId res))

/-- Mount with a session id, then tick against the given answers. -/
def runPoller (sessionId : JsString) (answers : List (Except JsError ProgressSnapshot)) : PollState :=
  runTicks sessionId answers (mountPolling (some sessionId) PollState.init)

/-- Whether an effect is a progress fetch. -/
def Effect.isFetch : Effect → Bool
  | .axiosGet _ => true
  | _ => false

/-- Whether an effect is a refresh of the provider list. -/
def Effect.isRefresh : Effect → Bool
  | .loadProviders => true
  | _ => false

/-- Whether an effect schedules a tick. -/
def Effect.isTimer : Effect → Bool
  | .setTimeout _ => true
  | _ => false

/-- Whether an effect is a notification to the user. -/
def Effect.isAlert : Effect → Bool
  | .alert _ => true
  | _ => false

/-- What was done after the last progress fetch of a trace. -/
def afterLastFetch (tr : List Effect) : List Effect :=
  (tr.reverse.takeWhile (fun e => !e.isFetch)).reverse

/-- The address of the progress endpoint for a session. -/
def progressUrl (sessionId : JsString) : JsString :=
  lit "/api/validation/progress/" ++ sessionId

/-- What a tick is expected to do on an answer that is still in progress. -/
def inProgressTick (sessionId : JsString) (data : ProgressSnapshot) : List Effect :=
  [.axiosGet (progressUrl sessionId), .setValidationProgress data, .setTimeout 2000,
   .loadProviders]

/-- What a tick is expected to do on an answer that is no longer in progress. -/
def finalTick (sessionId : JsString) (data : ProgressSnapshot) : List Effect :=
  [.axiosGet (progressUrl sessionId), .setValidationProgress data, .setIsPolling false,
   .loadProviders]

/-- What a tick is expected to do when the fetch fails. -/
def failedTick (sessionId : JsString) : List Effect :=
  [.axiosGet (progressUrl sessionId), .consoleError "Failed to fetch progress:",
   .setIsPolling false]

/-- A snapshot with the given status and nothing else. -/
def snapshotOf (status : JsVal) : ProgressSnapshot :=
  { status := status, status_message := .undefined, current_hospital := .undefined,
    progress_percentage := .num 0, completed_hospitals := .num 0, total_hospitals := .num 0,
    verified_count := .num 0, updated_count := .num 0, needs_review_count := .num 0,
    total_records := .num 0 }

/-! ## ViewData.jsx: pagination -/

/-- The answer of `GET /api/uploaded-data/:id`, with rows of type `α`. -/
structure UploadedDataset (α : Type) where
  filename : JsString
  record_count : Int
  uploaded_at : JsString
  columns : List JsString
  data : List α

namespace ViewData

/-- The constant `rowsPerPage`. -/
def rowsPerPage : Nat := 20

/-- The expression `Math.ceil(n / d)` for an array length `n` and `d > 0`: the double
quotient of two such integers is close enough for the ceiling to be the exact one. -/
def mathCeilDiv (n d : Nat) : Int := ((n + d - 1) / d : Nat)

/-- The clamping of a relative index by `Array.prototype.slice`: a negative index counts
from the end, and the result lies in `[0, len]`. -/
def relIndex (len : Nat) (i : Int) : Nat :=
  if i < 0 then (len + i).toNat else min i.toNat len

/-- The method `xs.slice(start, stop)`. -/
def slice {α : Type} (xs : List α) (start stop : Int) : List α :=
  let k := relIndex xs.length start
  let final := relIndex xs.length stop
  (xs.drop k).take (final - k)

/-- The value `totalPages`. -/
def totalPages {α : Type} (csvData : Option (UploadedDataset α)) : Int :=
  match csvData with
  | some d => mathCeilDiv d.data.length rowsPerPage
  | none => 0

/-- The value `startIdx`. -/
def startIdx (currentPage : Int) : Int := (currentPage - 1) * rowsPerPage

/-- The value `endIdx`. -/
def endIdx (currentPage : Int) : Int := startIdx currentPage + rowsPerPage

/-- The value `paginatedData`: `csvData?.data.slice(startIdx, endIdx) || []`. -/
def paginatedData {α : Type} (csvData : Option (UploadedDataset α)) (currentPage : Int) : List α :=
  match csvData with
  | some d => slice d.data (startIdx currentPage) (endIdx currentPage)
  | none => []

/-- The Previous button's handler `p => Math.max(1, p - 1)`. -/
def onPrevious (p : Int) : Int := max 1 (p - 1)

/-- The Next button's handler `p => Math.min(totalPages, p + 1)`. -/
def onNext (totalPages p : Int) : Int := min totalPages (p + 1)

/-- The Previous button's `disabled`: `currentPage === 1`. -/
def previousDisabled (currentPage : Int) : Bool := currentPage == 1

/-- The Next button's `disabled`: `currentPage === totalPages`. -/
def nextDisabled (totalPages currentPage : Int) : Bool := currentPage == totalPages

/-- Whether the page controls are rendered: `totalPages > 1`. -/
def controlsShown (totalPages : Int) : Bool := decide (totalPages > 1)

/-- A click on one of the two buttons. -/
inductive PageAction where
  | previous
  | next
  deriving DecidableEq, Repr

/-- The page after a click. -/
def applyAction (totalPages p : Int) : PageAction → Int
  | .previous => onPrevious p
  | .next => onNext totalPages p

/-- The page after a sequence of clicks. -/
def applyActions (totalPages p : Int) (as : List PageAction) : Int :=
  as.foldl (applyAction totalPages) p

/-- A dataset that holds the given rows. -/
def datasetOf {α : Type} (rows : List α) : UploadedDataset α :=
  { filename := [], record_count := rows.length, uploaded_at := [], columns := [], data := rows }

end ViewData

/-! ## Dashboard.jsx -/

/-- What `loadDashboardData` does, in the order it does it. -/
inductive DashEffect where
  | axiosGet (url : JsString) (params : List (JsString × JsVal))
  | setStats (data : JsVal)
  | setRecentIssues (rows : List JsVal)
  | setTrendData (data : JsVal)
  | consoleError (msg : String)
  | alert (msg : String)
  deriving DecidableEq, Repr

/-- The request for the aggregate counters. -/
def statsRequest : DashEffect := .axiosGet (lit "/api/dashboard/stats") []

/-- The request for the records that need review. -/
def issuesRequest : DashEffect :=
  .axiosGet (lit "/api/validation/status")
    [(lit "status", .str (lit "human verification needed")), (lit "limit", .num 5)]

/-- The request for the error trends. -/
def trendsRequest : DashEffect := .axiosGet (lit "/api/dashboard/trends") []

/-- The function `loadDashboardData`, given what each of the three requests answers when it
is made: the body `res.data` of the stats and trends answers, and `res.data.data` of the
status answer (an array, or `none` when absent, which `|| []` turns into the empty list). -/
def loadDashboardData (statsRes : Except JsError JsVal)
    (issuesRes : Except JsError (Option (List JsVal)))
    (trendsRes : Except JsError JsVal) : List DashEffect :=
  statsRequest ::
    match statsRes with
    | .error _ => [.consoleError "Failed to load dashboard data:"]
    | .ok stats =>
      .setStats stats :: issuesRequest ::
        match issuesRes with
        | .error _ => [.consoleError "Failed to load dashboard data:"]
        | .ok issues =>
          .setRecentIssues (issues.getD []) :: trendsRequest ::
            match trendsRes with
            | .error _ => [.consoleError "Failed to load dashboard data:"]
            | .ok trends => [.setTrendData trends]

/-- The dashboard's state: `stats` (null at first), `recentIssues` (empty at first) and
`trendData` (`none` while it is the initial empty chart). -/
structure DashState where
  stats : JsVal
  recentIssues : List JsVal
  trendData : Option JsVal
  deriving DecidableEq, Repr

/-- The state of a freshly mounted dashboard. -/
def DashState.init : DashState := { stats := .null, recentIssues := [], trendData := none }

/-- The change one effect makes to the dashboard's state. -/
def DashState.step (st : DashState) : DashEffect → DashState
  | .setStats d => { st with stats := d }
  | .setRecentIssues rows => { st with recentIssues := rows }
  | .setTrendData d => { st with trendData := some d }
  | _ => st

/-- The state after `loadDashboardData` has run from the given state. -/
def DashState.afterLoad (st : DashState) (statsRes : Except JsError JsVal)
    (issuesRes : Except JsError (Option (List JsVal)))
    (trendsRes : Except JsError JsVal) : DashState :=
  (loadDashboardData statsRes issuesRes trendsRes).foldl DashState.step st

/-- Whether a request got an answer. -/
def succeeded {ε α : Type} : Except ε α → Bool
  | .ok _ => true
  | .error _ => false

/-- Whether a dashboard effect is a notification to the user. -/
def DashEffect.isAlert : DashEffect → Bool
  | .alert _ => true
  | _ => false

/-- Whether a dashboard effect is a line in the console log. -/
def DashEffect.isLog : DashEffect → Bool
  | .consoleError _ => true
  | _ => false

/-- Whether a dashboard effect is a request to the backend. -/
def DashEffect.isRequest : DashEffect → Bool
  | .axiosGet _ _ => true
  | _ => false

/-! ## String conversion -/

/-- The conversion of a value to a string in a template literal or a `+` with a string.
Strings, `undefined`, `null` and booleans convert as the language fixes; the text of a
number or of an object is the platform's, given by `render`. -/
def JsVal.toJsString (render : JsVal → JsString) : JsVal → JsString
  | .str s => s
  | .undefined => lit "undefined"
  | .null => lit "null"
  | .bool true => lit "true"
  | .bool false => lit "false"
  | v => render v

/-! ## Comparison.jsx: accept and reject -/

/-- What the handlers of the comparison view do, in the order they do it. -/
inductive CompEffect where
  | axiosPut (url : JsString)
  | alert (msg : JsString)
  | navigate (path : JsString)
  | setData (data : ComparisonRecord)
  | consoleError (msg : String)
  deriving DecidableEq, Repr

/-- The handler `handleAccept`, given the outcome of its PUT (`.error` when it rejects);
`id` is the route parameter. -/
def handleAccept (id : JsString) (res : Except JsError Unit) : List CompEffect :=
  .axiosPut (lit "/api/validation/" ++ id ++ lit "/accept") ::
    match res with
    | .ok _ => [.alert (lit "Changes accepted!"), .navigate (lit "/validation")]
    | .error _ => [.alert (lit "Failed to accept changes")]

/-- The handler `handleReject`, given the outcome of its PUT. -/
def handleReject (id : JsString) (res : Except JsError Unit) : List CompEffect :=
  .axiosPut (lit "/api/validation/" ++ id ++ lit "/reject") ::
    match res with
    | .ok _ => [.alert (lit "Changes rejected!"), .navigate (lit "/validation")]
    | .error _ => [.alert (lit "Failed to reject changes")]

/-- The comparison view's state: the loaded `data` and the route the browser is on. -/
structure CompState where
  data : Option ComparisonRecord
  route : JsString
  deriving DecidableEq, Repr

/-- The change one effect makes to the comparison view. -/
def CompState.step (st : CompState) : CompEffect → CompState
  | .setData d => { st with data := some d }
  | .navigate path => { st with route := path }
  | _ => st

/-- The changes a list of effects makes, in order. -/
def CompState.perform (st : CompState) (es : List CompEffect) : CompState :=
  es.foldl CompState.step st

/-- Whether an effect is a navigation. -/
def CompEffect.isNavigate : CompEffect → Bool
  | .navigate _ => true
  | _ => false

/-- Whether an effect is a notification. -/
def CompEffect.isAlert : CompEffect → Bool
  | .alert _ => true
  | _ => false

/-- Whether an effect is a request to the backend. -/
def CompEffect.isRequest : CompEffect → Bool
  | .axiosPut _ => true
  | _ => false

/-! ## ValidationStatus.jsx: the provider list -/

/-- The `params` object `loadProviders` hands to `axios.get`. -/
structure StatusParams where
  status : JsVal
  search : JsVal
  skip : Int
  limit : Int
  deriving DecidableEq, Repr

/-- What `loadProviders` does, in the order it does it. -/
inductive TableEffect where
  | axiosGet (url : JsString) (params : StatusParams)
  | setProviders (rows : List JsVal)
  | consoleError (msg : String)
  deriving DecidableEq, Repr

/-- The `params` of `loadProviders` for the filter, search string and page of its closure. -/
def loadProvidersParams (statusFilter search : JsString) (page : Int) : StatusParams :=
  { status :=
      if (JsVal.str statusFilter).strictNe (.str (lit "All")) then .str statusFilter
      else .undefined
    search := .str search
    skip := (page - 1) * 10
    limit := 10 }

/-- The function `loadProviders`, given the answer of its request: `res.data.data` is an
array, or `none` when absent, which `|| []` turns into the empty list. -/
def loadProviders (statusFilter search : JsString) (page : Int)
    (res : Except JsError (Option (List JsVal))) : List TableEffect :=
  .axiosGet (lit "/api/validation/status") (loadProvidersParams statusFilter search page) ::
    match res with
    | .ok rows => [.setProviders (rows.getD [])]
    | .error _ => [.consoleError "Failed to load providers:"]

/-- The query string axios builds from a `params` object: a parameter whose value is
`undefined` or `null` is left out, the others are sent in order. -/
def sentParams (p : StatusParams) : List (JsString × JsVal) :=
  [(lit "status", p.status), (lit "search", p.search), (lit "skip", JsVal.num p.skip),
   (lit "limit", JsVal.num p.limit)].filter
    (fun kv => !(kv.2 == JsVal.undefined || kv.2 == JsVal.null))

/-- The confidence cell of a row:
 `provider.confidence_score ? (provider.confidence_score + '%') : '—'`, the text written as
a template literal in the source. -/
def confidenceCell (render : JsVal → JsString) (confidence_score : JsVal) : JsString :=
  if confidence_score.truthy then confidence_score.toJsString render ++ lit "%"
  else lit "—"

/-- The poller's invariant: while `isPolling` is set, a stored snapshot is one in
progress. -/
def PollState.pollingInProgress (st : PollState) : Prop :=
  st.isPolling = true →
    ∀ snapshot, st.validationProgress = some snapshot →
      snapshot.status = .str (lit "in_progress")

/-- Whether the banner "Validation In Progress..." is rendered:
`isPolling && validationProgress`. -/
def progressBannerShown (st : PollState) : Bool :=
  st.isPolling && st.validationProgress.isSome

/-- Whether the banner "Validation Complete!" is rendered:
`validationProgress && validationProgress.status === 'completed'`. -/
def completeBannerShown (st : PollState) : Bool :=
  match st.validationProgress with
  | some snapshot => snapshot.status.strictEq (.str (lit "completed"))
  | none => false

/-! ### Numbers of the page counter

The page counter is a JavaScript number, an IEEE double. It starts at 1 and moves by 1, so
it is always an integer; the arithmetic on it is exact up to `2 ^ 53` and rounds beyond. -/

/-- The largest power of two up to which every integer is a double: `2 ^ 53`. -/
def maxExactInt : Nat := 9007199254740992

/-- The spacing of the doubles around a magnitude `m`: the least power of two `u`, from `u`
on, with `m / u < 2 ^ 53`. The fuel covers the exponent range of a double. -/
def doubleUlp : Nat → Nat → Nat → Nat
  | 0, _, u => u
  | fuel + 1, m, u => if m / u < maxExactInt then u else doubleUlp fuel m (2 * u)

/-- The magnitude of the double nearest to the magnitude `m`, ties going to the even
significand. -/
def roundMagnitude (m : Nat) : Nat :=
  let ulp := doubleUlp 1024 m 1
  let q := m / ulp
  let r := m % ulp
  if 2 * r < ulp then q * ulp
  else if ulp < 2 * r then (q + 1) * ulp
  else if q % 2 = 0 then q * ulp
  else (q + 1) * ulp

/-- The double nearest to an integer (round to nearest, ties to even), for magnitudes
below the overflow threshold `2 ^ 1024`. The sum, difference and product of two doubles
that are integers is this rounding of the exact result. -/
def roundToDouble (n : Int) : Int :=
  if n < 0 then -(roundMagnitude n.natAbs : Int) else (roundMagnitude n.natAbs : Int)

namespace StatusTable

/-- The Previous button's handler `p => Math.max(1, p - 1)`. -/
def onPrevious (p : Int) : Int := max 1 (roundToDouble (p - 1))

/-- The Next button's handler `p => p + 1`. -/
def onNext (p : Int) : Int := roundToDouble (p + 1)

/-- The Previous button's `disabled`: `page === 1`. The Next button has none. -/
def previousDisabled (page : Int) : Bool := page == 1

/-- The page after a click. -/
def applyAction (p : Int) : ViewData.PageAction → Int
  | .previous => onPrevious p
  | .next => onNext p

/-- The page after a sequence of clicks. -/
def applyActions (p : Int) (as : List ViewData.PageAction) : Int :=
  as.foldl applyAction p

/-- The `skip` of the query for a page, `(page - 1) * 10`, as the double it is. -/
def skip (page : Int) : Int := roundToDouble (roundToDouble (page - 1) * 10)

end StatusTable

/-! ## ViewData.jsx: all pages -/

/-- The slices of pages `1, 2, ..., totalPages`, in order. -/
def ViewData.allPages {α : Type} (csvData : Option (UploadedDataset α)) : List (List α) :=
  (List.range (ViewData.totalPages csvData).toNat).map
    (fun (i : Nat) => ViewData.paginatedData csvData ((i : Int) + 1))

/-! ## ProviderUpload.jsx -/

/-- One entry of the upload history. -/
structure Upload where
  id : JsVal
  filename : JsVal
  type : JsVal
  timestamp : JsVal
  status : JsVal
  record_count : JsVal
  deriving DecidableEq, Repr

/-- What a rejected request carries: `error.response?.data?.detail` (`undefined` when the
backend gave none) and `error.message`. -/
structure AxiosError where
  detail : JsVal
  message : JsString
  deriving DecidableEq, Repr

/-- What the handlers of the upload view do, in the order they do it. The body of a POST
is its fields: the form field `file`, or the JSON field `upload_id`. `setLocation` is the
assignment to `window.location.href`. -/
inductive UploadEffect where
  | axiosGet (url : JsString)
  | axiosPost (url : JsString) (body : List (JsString × JsVal))
  | alert (msg : JsString)
  | setSelectedFile (file : JsVal)
  | setUploads (uploads : List Upload)
  | setLocation (href : JsString)
  | consoleError (msg : String)
  deriving DecidableEq, Repr

/-- The function `loadUploads`, given the answer of its request; a rejection is not
handled. -/
def loadUploads (uploadsRes : Except AxiosError (List Upload)) : List UploadEffect :=
  .axiosGet (lit "/api/uploads") ::
    match uploadsRes with
    | .ok uploads => [.setUploads uploads]
    | .error _ => []

/-- The handler `handleFileUpload(type)`, given the selected file, the outcome of the POST
and the answer the reload of the history gets. -/
def handleFileUpload (type : JsString) (selectedFile : JsVal)
    (postRes : Except AxiosError Unit) (uploadsRes : Except AxiosError (List Upload)) :
    List UploadEffect :=
  if !selectedFile.truthy then []
  else
    .axiosPost (lit "/api/upload/" ++ type) [(lit "file", selectedFile)] ::
      match postRes with
      | .ok _ =>
        [.alert (lit "File uploaded successfully!"), .setSelectedFile .null] ++
          loadUploads uploadsRes
      | .error e => [.alert (lit "Upload failed: " ++ e.message)]

/-- The handler `startValidation`, given the loaded history and the outcome of the POST
(`.ok` carries `response.data.session_id`). -/
def startValidation (render : JsVal → JsString) (uploads : List Upload)
    (res : Except AxiosError JsVal) : List UploadEffect :=
  match uploads.head? with
  | none => [.alert (lit "No uploads found!")]
  | some latestUpload =>
    .axiosPost (lit "/api/validate/start-incremental") [(lit "upload_id", latestUpload.id)] ::
      match res with
      | .ok sessionId =>
        [.setLocation (lit "/validation?session=" ++ sessionId.toJsString render)]
      | .error e =>
        [.consoleError "Validation error:",
         .alert (lit "Validation failed: " ++
           (e.detail.or (.str e.message)).toJsString render)]

/-- The upload view's state. -/
structure UploadState where
  uploads : List Upload
  selectedFile : JsVal
  deriving DecidableEq, Repr

/-- The change one effect makes to the upload view. -/
def UploadState.step (st : UploadState) : UploadEffect → UploadState
  | .setSelectedFile file => { st with selectedFile := file }
  | .setUploads uploads => { st with uploads := uploads }
  | _ => st

/-- The changes a list of effects makes, in order. -/
def UploadState.perform (st : UploadState) (es : List UploadEffect) : UploadState :=
  es.foldl UploadState.step st

/-- Whether an effect is a request to the backend. -/
def UploadEffect.isRequest : UploadEffect → Bool
  | .axiosGet _ => true
  | .axiosPost _ _ => true
  | _ => false

/-- Whether an effect is a POST. -/
def UploadEffect.isPost : UploadEffect → Bool
  | .axiosPost _ _ => true
  | _ => false

/-- Whether an effect is a notification. -/
def UploadEffect.isAlert : UploadEffect → Bool
  | .alert _ => true
  | _ => false

/-- An upload with the given id and nothing else. -/
def uploadOf (id : Int) : Upload :=
  { id := .num id, filename := .undefined, type := .undefined, timestamp := .undefined,
    status := .undefined, record_count := .undefined }

/-- A number's text for the examples: the decimal digits of an integer. -/
def renderDecimal : JsVal → JsString
  | .num n => (toString n).toList
  | _ => lit "[object Object]"

/-! ## Sample inputs -/

/-- A record whose name differs in letter case only and whose phone is the same. -/
def caseOnlyRecord : ComparisonRecord :=
  { original := ⟨.str (lit "Dr. Amy Wong"), .str (lit "555-0100"), .null, .num 1234567890,
      .undefined, .ref 1⟩
    validated := ⟨.str (lit "DR. AMY WONG"), .str (lit "555-0100"), .null, .num 1234567890,
      .undefined, .ref 2⟩ }

/-- A record whose phone and education are missing and whose address is the empty
string. -/
def missingPhoneRecord : ComparisonRecord :=
  { original := ⟨.str (lit "Dr. Amy Wong"), .undefined, .str [], .num 1234567890, .null,
      .ref 1⟩
    validated := ⟨.str (lit "Dr. Amy Wong"), .str (lit "555-0100"), .str [], .num 1234567890,
      .null, .ref 2⟩ }

/-! ## Theorems -/

theorem JsVal.strictEq_iff (a b : JsVal) : a.strictEq b = true ↔ a = b := by
  cases a <;> cases b <;> simp [JsVal.strictEq]

theorem JsVal.strictNe_iff (a b : JsVal) : a.strictNe b = true ↔ a ≠ b := by
  simp [JsVal.strictNe, ← JsVal.strictEq_iff]

theorem DataPanel_keys (data differences : FieldSet) (highlight : JsVal) :
    (DataPanel data differences highlight).map Cell.key =
      [.name, .phone, .address, .npi, .education, .specialties] := by
  simp [DataPanel, fields, renderField]

theorem JsVal.and_truthy (b : Bool) (hl : JsVal) :
    ((JsVal.bool b).and hl).truthy = (b && hl.truthy) := by
  cases b <;> rfl

theorem renderField_highlighted (d e : FieldSet) (hl : JsVal) (f : FieldKey × String) :
    (renderField d e hl f).highlighted ↔
      ((d.get f.1).strictNe (e.get f.1) = true ∧ hl.truthy = true) := by
  unfold Cell.highlighted renderField
  simp only [JsVal.and_truthy]
  generalize (d.get f.1).strictNe (e.get f.1) = a
  generalize hl.truthy = b
  cases a <;> cases b <;> decide

theorem renderField_plain (d e : FieldSet) (hl : JsVal) (f : FieldKey × String) :
    (renderField d e hl f).plain ↔
      ¬ ((d.get f.1).strictNe (e.get f.1) = true ∧ hl.truthy = true) := by
  unfold Cell.plain renderField
  simp only [JsVal.and_truthy]
  generalize (d.get f.1).strictNe (e.get f.1) = a
  generalize hl.truthy = b
  cases a <;> cases b <;> decide

theorem renderField_key (d e : FieldSet) (hl : JsVal) (f : FieldKey × String) :
    (renderField d e hl f).key = f.1 := rfl

/-- C1: for every comparison record, each of the six fields is rendered once in each
panel; a field of the validated panel carries the highlight styling exactly when
`original[field] !== validated[field]`, and the plain styling otherwise; no field of the
original panel carries the highlight styling. -/
theorem DataPanel_highlight_iff_strictNe (r : ComparisonRecord) :
    ∃ v, Comparison (some r) = some v ∧
      v.originalPanel.map Cell.key = [.name, .phone, .address, .npi, .education, .specialties] ∧
      v.validatedPanel.map Cell.key = [.name, .phone, .address, .npi, .education, .specialties] ∧
      (∀ c ∈ v.validatedPanel,
        (c.highlighted ↔ (r.original.get c.key).strictNe (r.validated.get c.key) = true) ∧
        (c.highlighted ↔ r.original.get c.key ≠ r.validated.get c.key) ∧
        (¬ c.highlighted ↔ c.plain)) ∧
      (∀ c ∈ v.originalPanel, ¬ c.highlighted ∧ c.plain) := by
  refine ⟨_, rfl, DataPanel_keys _ _ _, DataPanel_keys _ _ _, ?_, ?_⟩
  · intro c hc
    simp only [DataPanel, List.mem_map] at hc
    obtain ⟨f, -, rfl⟩ := hc
    have hsym : (r.validated.get f.1).strictNe (r.original.get f.1)
        = (r.original.get f.1).strictNe (r.validated.get f.1) := by
      rw [Bool.eq_iff_iff, JsVal.strictNe_iff, JsVal.strictNe_iff]
      exact ne_comm
    simp only [renderField_highlighted, renderField_plain, renderField_key, hsym,
      JsVal.strictNe_iff]
    simp [JsVal.truthy]
  · intro c hc
    simp only [DataPanel, List.mem_map] at hc
    obtain ⟨f, -, rfl⟩ := hc
    simp [renderField_highlighted, renderField_plain, JsVal.truthy]

/-- The statement of C1 at a record whose names differ in letter case only, whose
specialties are two arrays, and whose other fields agree: the validated panel highlights
the name and the specialties and nothing else. -/
theorem DataPanel_highlight_witness :
    (∃ v, Comparison (some caseOnlyRecord) = some v ∧
      v.originalPanel.map Cell.key = [.name, .phone, .address, .npi, .education, .specialties] ∧
      v.validatedPanel.map Cell.key = [.name, .phone, .address, .npi, .education, .specialties] ∧
      (∀ c ∈ v.validatedPanel,
        (c.highlighted ↔
          (caseOnlyRecord.original.get c.key).strictNe (caseOnlyRecord.validated.get c.key) = true) ∧
        (c.highlighted ↔ caseOnlyRecord.original.get c.key ≠ caseOnlyRecord.validated.get c.key) ∧
        (¬ c.highlighted ↔ c.plain)) ∧
      (∀ c ∈ v.originalPanel, ¬ c.highlighted ∧ c.plain)) ∧
    (Comparison (some caseOnlyRecord)).map
        (fun v => v.validatedPanel.map (fun c => decide c.highlighted)) =
      some [true, false, false, false, false, true] :=
  ⟨DataPanel_highlight_iff_strictNe caseOnlyRecord, by decide⟩

/-! ### Status badge -/

theorem getStatusClass_of_not_known (status : JsVal) (h : status ∉ knownStatuses) :
    getStatusClass status = "status-pending" := by
  simp only [knownStatuses, List.mem_cons, List.mem_singleton, List.not_mem_nil, or_false,
    not_or] at h
  obtain ⟨h1, h2, h3⟩ := h
  have e1 : status.strictEq (.str (lit "verified")) = false := by
    rw [Bool.eq_false_iff, Ne, JsVal.strictEq_iff]; exact h1
  have e2 : status.strictEq (.str (lit "updated details")) = false := by
    rw [Bool.eq_false_iff, Ne, JsVal.strictEq_iff]; exact h2
  have e3 : status.strictEq (.str (lit "human verification needed")) = false := by
    rw [Bool.eq_false_iff, Ne, JsVal.strictEq_iff]; exact h3
  simp [getStatusClass, e1, e2, e3]

theorem split_ne_nil (sep : Char) (s : JsString) : split sep s ≠ [] := by
  cases s with
  | nil => simp [split]
  | cons c cs =>
    unfold split
    split
    · simp
    · split <;> simp

theorem join_cons_cons (sep w : JsString) (v : JsString) (ws : List JsString) :
    join sep (w :: v :: ws) = w ++ sep ++ join sep (v :: ws) := rfl

theorem join_append_head (sep a w : JsString) (ws : List JsString) :
    join sep ((a ++ w) :: ws) = a ++ join sep (w :: ws) := by
  cases ws with
  | nil => simp [join]
  | cons v vs => simp [join_cons_cons, List.append_assoc]

/-- The callback of `formatStatus` on one word. -/
theorem capWord_nil (upper : Char → JsString) :
    toUpperCase upper (charAt [] 0) ++ sliceFrom [] 1 = [] := by
  simp [toUpperCase, charAt, sliceFrom]

theorem capWord_cons (upper : Char → JsString) (c : Char) (cs : JsString) :
    toUpperCase upper (charAt (c :: cs) 0) ++ sliceFrom (c :: cs) 1 = upper c ++ cs := by
  simp [toUpperCase, charAt, sliceFrom]

theorem join_split_capitalize (upper : Char → JsString) (s : JsString) :
    ∀ w ws, split ' ' s = w :: ws →
      join (lit " ") ((toUpperCase upper (charAt w 0) ++ sliceFrom w 1) ::
          ws.map (fun word => toUpperCase upper (charAt word 0) ++ sliceFrom word 1))
        = capitalizeWords upper true s ∧
      join (lit " ") (w ::
          ws.map (fun word => toUpperCase upper (charAt word 0) ++ sliceFrom word 1))
        = capitalizeWords upper false s := by
  induction s with
  | nil =>
    intro w ws h
    simp only [split, List.cons.injEq] at h
    obtain ⟨rfl, rfl⟩ := h
    simp [capWord_nil, join, capitalizeWords]
  | cons c cs ih =>
    intro w ws h
    obtain ⟨w', ws', hs⟩ : ∃ w' ws', split ' ' cs = w' :: ws' := by
      cases hsp : split ' ' cs with
      | nil => exact absurd hsp (split_ne_nil _ _)
      | cons a b => exact ⟨a, b, rfl⟩
    obtain ⟨ih1, ih2⟩ := ih w' ws' hs
    by_cases hc : c = ' '
    · subst hc
      simp only [split, if_true, hs, List.cons.injEq] at h
      obtain ⟨rfl, rfl⟩ := h
      simp only [capWord_nil, List.map_cons, join_cons_cons, capitalizeWords, if_true, ih1]
      simp [lit]
    · simp only [split, if_neg hc, hs, List.cons.injEq] at h
      obtain ⟨rfl, rfl⟩ := h
      simp only [capWord_cons, capitalizeWords, if_neg hc, if_true]
      constructor
      · rw [join_append_head, ih2]
      · have := join_append_head (lit " ") [c] w'
          (ws'.map (fun word => toUpperCase upper (charAt word 0) ++ sliceFrom word 1))
        simp only [List.singleton_append] at this
        rw [this, ih2]
        simp

theorem formatStatus_str (upper : Char → JsString) (s : JsString) (h : s ≠ []) :
    formatStatus upper (.str s) = .ok (capitalizeWords upper true s) := by
  have ht : (JsVal.str s).truthy = true := by
    cases s with
    | nil => exact absurd rfl h
    | cons c cs => rfl
  simp only [formatStatus, ht, Bool.not_true, Bool.false_eq_true, if_false]
  cases hsp : split ' ' s with
  | nil => exact absurd hsp (split_ne_nil _ _)
  | cons w ws =>
    rw [List.map_cons, (join_split_capitalize upper s w ws hsp).1]

theorem formatStatus_falsy (upper : Char → JsString) (status : JsVal)
    (h : status.truthy = false) : formatStatus upper status = .ok (lit "Pending") := by
  simp [formatStatus, h]

theorem capWord_eq (upper : Char → JsString) (w : JsString) :
    toUpperCase upper (charAt w 0) ++ sliceFrom w 1 = capitalizeWord upper w := by
  cases w with
  | nil => exact capWord_nil upper
  | cons c cs => exact capWord_cons upper c cs

theorem join_split (s : JsString) : join (lit " ") (split ' ' s) = s := by
  induction s with
  | nil => rfl
  | cons c cs ih =>
    cases hsp : split ' ' cs with
    | nil => exact absurd hsp (split_ne_nil _ _)
    | cons w ws =>
      rw [hsp] at ih
      by_cases hc : c = ' '
      · subst hc
        simp only [split, if_true, hsp, join_cons_cons, ih]
        simp [lit]
      · simp only [split, if_neg hc, hsp]
        have := join_append_head (lit " ") [c] w ws
        simp only [List.singleton_append] at this
        rw [this, ih]

/-- C2 as stated fails: `rejected` is none of the three known statuses and gets the pending
style, but its label is `Rejected`, not `Pending`. -/
theorem formatStatus_unknown_not_Pending :
    JsVal.str (lit "rejected") ∉ knownStatuses ∧
    getStatusClass (.str (lit "rejected")) = "status-pending" ∧
    formatStatus asciiUpper (.str (lit "rejected")) = .ok (lit "Rejected") ∧
    ¬ (∀ (upper : Char → JsString) (status : JsVal), status ∉ knownStatuses →
        getStatusClass status = "status-pending" ∧
        formatStatus upper status = .ok (lit "Pending")) := by
  refine ⟨by decide, by decide, by decide, ?_⟩
  intro h
  exact absurd (h asciiUpper (.str (lit "rejected")) (by decide)).2 (by decide)

/-- C2, amended: a status that is none of the three known ones gets the pending style; its
label is `Pending` when the status is falsy (absent or empty), and when it is a non-empty
string the label is that string with its words capitalised. -/
theorem unknown_status_display (upper : Char → JsString) (status : JsVal)
    (h : status ∉ knownStatuses) :
    getStatusClass status = "status-pending" ∧
    (status.truthy = false → formatStatus upper status = .ok (lit "Pending")) ∧
    (∀ s, status = .str s → s ≠ [] →
      formatStatus upper status = .ok (capitalizeWords upper true s)) := by
  refine ⟨getStatusClass_of_not_known status h, formatStatus_falsy upper status, ?_⟩
  rintro s rfl hs
  exact formatStatus_str upper s hs

/-- The amended C2 at the unknown status `rejected` and at an absent status. -/
theorem unknown_status_display_witness :
    (getStatusClass (.str (lit "rejected")) = "status-pending" ∧
      formatStatus asciiUpper (.str (lit "rejected")) = .ok (lit "Rejected")) ∧
    (getStatusClass .undefined = "status-pending" ∧
      formatStatus asciiUpper .undefined = .ok (lit "Pending")) :=
  ⟨⟨(unknown_status_display asciiUpper (.str (lit "rejected")) (by decide)).1,
    ((unknown_status_display asciiUpper (.str (lit "rejected")) (by decide)).2.2
      (lit "rejected") rfl (by decide)).trans (by decide)⟩,
   ⟨(unknown_status_display asciiUpper .undefined (by decide)).1,
    (unknown_status_display asciiUpper .undefined (by decide)).2.1 rfl⟩⟩

/-- C6: `formatStatus` returns `Pending` for an absent (`undefined` or `null`) or empty
status; for every non-empty string it returns the string split on single spaces, each word
with its first unit upper-cased and the rest unchanged, rejoined with single spaces. Unit by
unit: a unit that opens the string or follows a space is upper-cased, the others are
copied. Splitting and rejoining alone gives the string back. -/
theorem formatStatus_capitalizes (upper : Char → JsString) :
    formatStatus upper .undefined = .ok (lit "Pending") ∧
    formatStatus upper .null = .ok (lit "Pending") ∧
    formatStatus upper (.str []) = .ok (lit "Pending") ∧
    (∀ s : JsString, s ≠ [] →
      formatStatus upper (.str s)
        = .ok (join (lit " ") ((split ' ' s).map (capitalizeWord upper))) ∧
      formatStatus upper (.str s) = .ok (capitalizeWords upper true s) ∧
      join (lit " ") (split ' ' s) = s) ∧
    (upper 'h' = ['H'] → upper 'v' = ['V'] → upper 'n' = ['N'] →
      formatStatus upper (.str (lit "human verification needed"))
        = .ok (lit "Human Verification Needed")) := by
  refine ⟨rfl, rfl, rfl, ?_, ?_⟩
  · intro s hs
    refine ⟨?_, formatStatus_str upper s hs, join_split s⟩
    have ht : (JsVal.str s).truthy = true := by
      cases s with
      | nil => exact absurd rfl hs
      | cons c cs => rfl
    simp only [formatStatus, ht, Bool.not_true, Bool.false_eq_true, if_false, capWord_eq]
  · intro hh hv hn
    rw [formatStatus_str upper _ (by decide)]
    simp [lit, capitalizeWords, hh, hv, hn]

/-- C6 at the ASCII case mapping: the example of the claim, and a status with a double
space, whose empty word stays empty. -/
theorem formatStatus_capitalizes_witness :
    formatStatus asciiUpper (.str (lit "human verification needed"))
      = .ok (lit "Human Verification Needed") ∧
    formatStatus asciiUpper (.str (lit "on  hold")) = .ok (lit "On  Hold") :=
  ⟨(formatStatus_capitalizes asciiUpper).2.2.2.2 (by decide) (by decide) (by decide),
   (((formatStatus_capitalizes asciiUpper).2.2.2.1 (lit "on  hold") (by decide)).1).trans
     (by decide)⟩

/-- C7: `getStatusClass` returns the validated style exactly for `verified`, the
in-progress style exactly for `updated details`, the failed style exactly for
`human verification needed`, and the pending style exactly for every other value, absent
ones included; a different letter case or a surrounding blank makes the value another one. -/
theorem getStatusClass_exact (status : JsVal) :
    (getStatusClass status = "status-validated" ↔ status = .str (lit "verified")) ∧
    (getStatusClass status = "status-progress" ↔ status = .str (lit "updated details")) ∧
    (getStatusClass status = "status-failed" ↔
      status = .str (lit "human verification needed")) ∧
    (getStatusClass status = "status-pending" ↔ status ∉ knownStatuses) ∧
    getStatusClass .undefined = "status-pending" ∧
    getStatusClass .null = "status-pending" ∧
    getStatusClass (.str (lit "Verified")) = "status-pending" ∧
    getStatusClass (.str (lit "verified ")) = "status-pending" ∧
    getStatusClass (.str (lit " updated details")) = "status-pending" := by
  refine ⟨?_, ?_, ?_, ?_, by decide, by decide, by decide, by decide, by decide⟩
  all_goals
    by_cases h1 : status = .str (lit "verified")
    · subst h1; decide
    by_cases h2 : status = .str (lit "updated details")
    · subst h2; decide
    by_cases h3 : status = .str (lit "human verification needed")
    · subst h3; decide
    have hn : status ∉ knownStatuses := by
      simp [knownStatuses, h1, h2, h3]
    have hp := getStatusClass_of_not_known status hn
    simp only [hp, h1, h2, h3, hn, not_false_eq_true, iff_true, iff_false] <;> decide

/-- C7 at the three known statuses and at one unknown status. -/
theorem getStatusClass_exact_witness :
    getStatusClass (.str (lit "verified")) = "status-validated" ∧
    getStatusClass (.str (lit "updated details")) = "status-progress" ∧
    getStatusClass (.str (lit "human verification needed")) = "status-failed" ∧
    getStatusClass (.str (lit "VERIFIED")) = "status-pending" :=
  ⟨(getStatusClass_exact _).1.mpr rfl, (getStatusClass_exact _).2.1.mpr rfl,
   (getStatusClass_exact _).2.2.1.mpr rfl,
   (getStatusClass_exact (.str (lit "VERIFIED"))).2.2.2.1.mpr (by decide)⟩

/-! ### Progress poller -/

theorem pollProgress_inProgress (sid : JsString) (data : ProgressSnapshot)
    (h : data.status = .str (lit "in_progress")) :
    pollProgress sid (.ok data) = inProgressTick sid data := by
  have e : data.status.strictEq (.str (lit "in_progress")) = true := by
    rw [JsVal.strictEq_iff]; exact h
  simp [pollProgress, inProgressTick, progressUrl, e]

theorem pollProgress_done (sid : JsString) (data : ProgressSnapshot)
    (h : data.status ≠ .str (lit "in_progress")) :
    pollProgress sid (.ok data) = finalTick sid data := by
  have e : data.status.strictEq (.str (lit "in_progress")) = false := by
    rw [Bool.eq_false_iff, Ne, JsVal.strictEq_iff]; exact h
  simp [pollProgress, finalTick, progressUrl, e]

theorem pollProgress_failed (sid : JsString) (err : JsError) :
    pollProgress sid (.error err) = failedTick sid := rfl

theorem perform_inProgressTick (st : PollState) (sid : JsString) (data : ProgressSnapshot) :
    st.perform (inProgressTick sid data) =
      { validationProgress := some data, isPolling := st.isPolling, due := st.due + 1,
        trace := st.trace ++ inProgressTick sid data } := by
  simp [PollState.perform, PollState.step, inProgressTick]

theorem perform_finalTick (st : PollState) (sid : JsString) (data : ProgressSnapshot) :
    st.perform (finalTick sid data) =
      { validationProgress := some data, isPolling := false, due := st.due,
        trace := st.trace ++ finalTick sid data } := by
  simp [PollState.perform, PollState.step, finalTick]

theorem perform_failedTick (st : PollState) (sid : JsString) :
    st.perform (failedTick sid) =
      { validationProgress := st.validationProgress, isPolling := false, due := st.due,
        trace := st.trace ++ failedTick sid } := by
  simp [PollState.perform, PollState.step, failedTick]

theorem runTicks_of_due_zero (sid : JsString) (answers : List (Except JsError ProgressSnapshot))
    (st : PollState) (h : st.due = 0) : runTicks sid answers st = st := by
  cases answers with
  | nil => rfl
  | cons r rs => simp [runTicks, h]

theorem runTicks_cons (sid : JsString) (r : Except JsError ProgressSnapshot)
    (rs : List (Except JsError ProgressSnapshot)) (st : PollState) (h : st.due = 1) :
    runTicks sid (r :: rs) st =
      runTicks sid rs (({ st with due := 0 }).perform (pollProgress sid r)) := by
  simp [runTicks, h]

theorem runTicks_completing (sid : JsString) (ps : List ProgressSnapshot)
    (hps : ∀ p ∈ ps, p.status = .str (lit "in_progress"))
    (c : ProgressSnapshot) (hc : c.status ≠ .str (lit "in_progress"))
    (rest : List (Except JsError ProgressSnapshot)) :
    ∀ st : PollState, st.due = 1 →
      runTicks sid (ps.map Except.ok ++ Except.ok c :: rest) st =
        { validationProgress := some c, isPolling := false, due := 0,
          trace := st.trace ++ (ps.flatMap (inProgressTick sid) ++ finalTick sid c) } := by
  induction ps with
  | nil =>
    intro st hst
    rw [List.map_nil, List.nil_append, runTicks_cons _ _ _ _ hst, pollProgress_done sid c hc,
      perform_finalTick, runTicks_of_due_zero _ _ _ rfl]
    simp
  | cons p ps ih =>
    intro st hst
    have hp : p.status = .str (lit "in_progress") := hps p (List.mem_cons_self _ _)
    have hps' : ∀ q ∈ ps, q.status = .str (lit "in_progress") :=
      fun q hq => hps q (List.mem_cons_of_mem _ hq)
    rw [List.map_cons, List.cons_append, runTicks_cons _ _ _ _ hst,
      pollProgress_inProgress sid p hp, perform_inProgressTick, ih hps' _ rfl]
    simp [List.flatMap_cons, List.append_assoc]

theorem mountPolling_some (sid : JsString) (h : sid ≠ []) :
    mountPolling (some sid) PollState.init =
      { validationProgress := none, isPolling := true, due := 1,
        trace := [.setIsPolling true] } := by
  cases sid with
  | nil => exact absurd rfl h
  | cons c cs => rfl

theorem countP_isFetch_inProgress (sid : JsString) (ps : List ProgressSnapshot) :
    (ps.flatMap (inProgressTick sid)).countP Effect.isFetch = ps.length := by
  induction ps with
  | nil => rfl
  | cons p ps ih =>
    simp only [List.flatMap_cons, List.countP_append, ih, List.length_cons]
    simp [inProgressTick, List.countP_cons, Effect.isFetch]
    omega

theorem afterLastFetch_finalTick (pre : List Effect) (sid : JsString) (c : ProgressSnapshot) :
    afterLastFetch (pre ++ finalTick sid c) =
      [.setValidationProgress c, .setIsPolling false, .loadProviders] := by
  simp [afterLastFetch, finalTick, List.reverse_append, List.takeWhile, Effect.isFetch]

/-- C3: with a session id present, when the progress endpoint answers `in_progress` `k`
times and then `completed`, the poller makes exactly `k + 1` progress fetches; after the
completing fetch it stores the snapshot, sets `isPolling` to false and refreshes the
provider list exactly once; it schedules no tick after that fetch and none is due at the
end, whatever the endpoint would answer next. -/
theorem poller_completes (sid : JsString) (hsid : sid ≠ []) (k : Nat)
    (ps : List ProgressSnapshot) (hk : ps.length = k)
    (hps : ∀ p ∈ ps, p.status = .str (lit "in_progress"))
    (c : ProgressSnapshot) (hc : c.status = .str (lit "completed"))
    (rest : List (Except JsError ProgressSnapshot)) :
    (runPoller sid (ps.map Except.ok ++ Except.ok c :: rest)).trace =
      .setIsPolling true :: (ps.flatMap (inProgressTick sid) ++ finalTick sid c) ∧
    (runPoller sid (ps.map Except.ok ++ Except.ok c :: rest)).trace.countP Effect.isFetch
      = k + 1 ∧
    afterLastFetch (runPoller sid (ps.map Except.ok ++ Except.ok c :: rest)).trace =
      [.setValidationProgress c, .setIsPolling false, .loadProviders] ∧
    (afterLastFetch (runPoller sid (ps.map Except.ok ++ Except.ok c :: rest)).trace).countP
      Effect.isRefresh = 1 ∧
    (afterLastFetch (runPoller sid (ps.map Except.ok ++ Except.ok c :: rest)).trace).countP
      Effect.isTimer = 0 ∧
    (runPoller sid (ps.map Except.ok ++ Except.ok c :: rest)).isPolling = false ∧
    (runPoller sid (ps.map Except.ok ++ Except.ok c :: rest)).due = 0 ∧
    (runPoller sid (ps.map Except.ok ++ Except.ok c :: rest)).validationProgress = some c := by
  have hc' : c.status ≠ .str (lit "in_progress") := by rw [hc]; decide
  have hrun : runPoller sid (ps.map Except.ok ++ Except.ok c :: rest) =
      { validationProgress := some c, isPolling := false, due := 0,
        trace := [.setIsPolling true] ++
          (ps.flatMap (inProgressTick sid) ++ finalTick sid c) } := by
    unfold runPoller
    rw [mountPolling_some sid hsid, runTicks_completing sid ps hps c hc' rest _ rfl]
  rw [hrun]
  have haft := afterLastFetch_finalTick
    (.setIsPolling true :: ps.flatMap (inProgressTick sid)) sid c
  simp only [List.cons_append] at haft
  refine ⟨rfl, ?_, ?_, ?_, ?_, rfl, rfl, rfl⟩
  · simp only [List.singleton_append, List.countP_cons, List.countP_append,
      countP_isFetch_inProgress, hk]
    simp [finalTick, Effect.isFetch, List.countP_cons]
  · simpa using haft
  · simp only [List.singleton_append, haft]; rfl
  · simp only [List.singleton_append, haft]; rfl

/-- C3 at `k = 2`, with two further answers that are never asked for. -/
theorem poller_completes_witness :
    (runPoller (lit "s1")
      [.ok (snapshotOf (.str (lit "in_progress"))), .ok (snapshotOf (.str (lit "in_progress"))),
       .ok (snapshotOf (.str (lit "completed"))), .ok (snapshotOf (.str (lit "in_progress"))),
       .error .rejected]).trace.countP Effect.isFetch = 3 ∧
    (runPoller (lit "s1")
      [.ok (snapshotOf (.str (lit "in_progress"))), .ok (snapshotOf (.str (lit "in_progress"))),
       .ok (snapshotOf (.str (lit "completed"))), .ok (snapshotOf (.str (lit "in_progress"))),
       .error .rejected]).due = 0 :=
  have h := poller_completes (lit "s1") (by decide) 2
    [snapshotOf (.str (lit "in_progress")), snapshotOf (.str (lit "in_progress"))] rfl
    (by decide) (snapshotOf (.str (lit "completed"))) rfl
    [.ok (snapshotOf (.str (lit "in_progress"))), .error .rejected]
  ⟨h.2.1, h.2.2.2.2.2.2.1⟩

/-- C8: on a successful fetch, `pollProgress` schedules one further tick, 2000 ms away, and
refreshes the provider list once exactly when the snapshot's status is `in_progress`; for
every other status it schedules no tick, sets `isPolling` to false and refreshes the list
exactly once, after the `setIsPolling`. Either way it makes one fetch, stores the
snapshot and shows no notification. -/
theorem pollProgress_ok (sid : JsString) (data : ProgressSnapshot) (st : PollState) :
    (((pollProgress sid (.ok data)).filter Effect.isTimer = [.setTimeout 2000] ∧
        (pollProgress sid (.ok data)).countP Effect.isRefresh = 1) ↔
      data.status = .str (lit "in_progress")) ∧
    (data.status = .str (lit "in_progress") →
      pollProgress sid (.ok data) = inProgressTick sid data ∧
      (st.perform (pollProgress sid (.ok data))).due = st.due + 1 ∧
      (st.perform (pollProgress sid (.ok data))).isPolling = st.isPolling) ∧
    (data.status ≠ .str (lit "in_progress") →
      pollProgress sid (.ok data) = finalTick sid data ∧
      (pollProgress sid (.ok data)).countP Effect.isTimer = 0 ∧
      (pollProgress sid (.ok data)).countP Effect.isRefresh = 1 ∧
      (st.perform (pollProgress sid (.ok data))).due = st.due ∧
      (st.perform (pollProgress sid (.ok data))).isPolling = false) ∧
    (pollProgress sid (.ok data)).countP Effect.isFetch = 1 ∧
    (pollProgress sid (.ok data)).countP Effect.isAlert = 0 ∧
    (st.perform (pollProgress sid (.ok data))).validationProgress = some data := by
  by_cases h : data.status = .str (lit "in_progress")
  · rw [pollProgress_inProgress sid data h, perform_inProgressTick]
    simp [h, inProgressTick, Effect.isTimer, Effect.isRefresh, Effect.isFetch, Effect.isAlert,
      List.filter, List.countP_cons]
  · rw [pollProgress_done sid data h, perform_finalTick]
    simp [h, finalTick, Effect.isTimer, Effect.isRefresh, Effect.isFetch, Effect.isAlert,
      List.filter, List.countP_cons]

/-- C8 at a status in progress, at `completed`, at an error status and at an absent one. -/
theorem pollProgress_ok_witness :
    (PollState.init.perform
      (pollProgress (lit "s1") (.ok (snapshotOf (.str (lit "in_progress")))))).due = 1 ∧
    (pollProgress (lit "s1") (.ok (snapshotOf (.str (lit "completed"))))).countP
      Effect.isTimer = 0 ∧
    (pollProgress (lit "s1") (.ok (snapshotOf (.str (lit "failed"))))).countP
      Effect.isRefresh = 1 ∧
    ((PollState.init.perform [.setIsPolling true]).perform
      (pollProgress (lit "s1") (.ok (snapshotOf .undefined)))).isPolling = false :=
  ⟨((pollProgress_ok (lit "s1") (snapshotOf (.str (lit "in_progress")))
      PollState.init).2.1 rfl).2.1,
   ((pollProgress_ok (lit "s1") (snapshotOf (.str (lit "completed")))
      PollState.init).2.2.1 (by decide)).2.1,
   ((pollProgress_ok (lit "s1") (snapshotOf (.str (lit "failed")))
      PollState.init).2.2.1 (by decide)).2.2.1,
   ((pollProgress_ok (lit "s1") (snapshotOf .undefined)
      (PollState.init.perform [.setIsPolling true])).2.2.1 (by decide)).2.2.2.2⟩

/-- C9: when the progress fetch fails, `pollProgress` schedules no tick, does not refresh
the provider list, shows no notification (it only logs), sets `isPolling` to false and
leaves the stored snapshot as it was; in a polling run the failed fetch is the last one,
whatever the endpoint would answer next. -/
theorem pollProgress_failure (sid : JsString) (err : JsError) (st : PollState) :
    pollProgress sid (.error err) = failedTick sid ∧
    (pollProgress sid (.error err)).countP Effect.isTimer = 0 ∧
    (pollProgress sid (.error err)).countP Effect.isRefresh = 0 ∧
    (pollProgress sid (.error err)).countP Effect.isAlert = 0 ∧
    (st.perform (pollProgress sid (.error err))).isPolling = false ∧
    (st.perform (pollProgress sid (.error err))).validationProgress = st.validationProgress ∧
    (st.perform (pollProgress sid (.error err))).due = st.due ∧
    (∀ rest, st.due = 1 →
      runTicks sid (.error err :: rest) st =
        { validationProgress := st.validationProgress, isPolling := false, due := 0,
          trace := st.trace ++ failedTick sid }) := by
  rw [pollProgress_failed, perform_failedTick]
  refine ⟨rfl, ?_, ?_, ?_, rfl, rfl, rfl, ?_⟩
  · simp [failedTick, Effect.isTimer, List.countP_cons]
  · simp [failedTick, Effect.isRefresh, List.countP_cons]
  · simp [failedTick, Effect.isAlert, List.countP_cons]
  intro rest h
  rw [runTicks_cons _ _ _ _ h, pollProgress_failed, perform_failedTick,
    runTicks_of_due_zero _ _ _ rfl]

/-- C9 in a run that has made one tick: the next fetch fails, and the answer after it is
never asked for. -/
theorem pollProgress_failure_witness :
    runTicks (lit "s1") [.error .rejected, .ok (snapshotOf (.str (lit "completed")))]
      { validationProgress := some (snapshotOf (.str (lit "in_progress"))),
        isPolling := true, due := 1,
        trace := .setIsPolling true ::
          inProgressTick (lit "s1") (snapshotOf (.str (lit "in_progress"))) } =
      { validationProgress := some (snapshotOf (.str (lit "in_progress"))),
        isPolling := false, due := 0,
        trace := (.setIsPolling true ::
          inProgressTick (lit "s1") (snapshotOf (.str (lit "in_progress")))) ++
            failedTick (lit "s1") } :=
  (pollProgress_failure (lit "s1") .rejected
    { validationProgress := some (snapshotOf (.str (lit "in_progress"))),
      isPolling := true, due := 1,
      trace := .setIsPolling true ::
        inProgressTick (lit "s1") (snapshotOf (.str (lit "in_progress"))) }).2.2.2.2.2.2.2
    [.ok (snapshotOf (.str (lit "completed")))] rfl

/-! ### Raw data viewer -/

theorem mathCeilDiv_eq_ceil (n : Nat) :
    ViewData.mathCeilDiv n ViewData.rowsPerPage = ⌈(n : ℚ) / 20⌉ := by
  symm
  rw [Int.ceil_eq_iff]
  have h1 : 20 * ((n + 19) / 20) ≤ n + 19 := Nat.mul_div_le _ _
  have h2 : n + 19 < 20 * ((n + 19) / 20) + 20 := by
    have := Nat.lt_div_mul_add (a := n + 19) (b := 20) (by norm_num)
    omega
  have h1q : (20 : ℚ) * (((n + 19) / 20 : ℕ) : ℚ) ≤ (n : ℚ) + 19 := by exact_mod_cast h1
  have h2q : (n : ℚ) + 19 < 20 * (((n + 19) / 20 : ℕ) : ℚ) + 20 := by exact_mod_cast h2
  simp only [ViewData.mathCeilDiv, ViewData.rowsPerPage, Int.cast_natCast]
  have e : n + 20 - 1 = n + 19 := by omega
  rw [e]
  constructor
  · rw [lt_div_iff₀ (by norm_num)]; linarith
  · rw [div_le_iff₀ (by norm_num)]
    have h3 : n ≤ 20 * ((n + 19) / 20) := by omega
    have h3q : (n : ℚ) ≤ 20 * (((n + 19) / 20 : ℕ) : ℚ) := by exact_mod_cast h3
    linarith

theorem slice_length {α : Type} (xs : List α) (a b : Int) :
    (ViewData.slice xs a b).length =
      min (ViewData.relIndex xs.length b - ViewData.relIndex xs.length a)
        (xs.length - ViewData.relIndex xs.length a) := by
  simp [ViewData.slice, List.length_take, List.length_drop]

theorem totalPages_some {α : Type} (d : UploadedDataset α) :
    ViewData.totalPages (some d) = (((d.data.length + 19) / 20 : ℕ) : Int) := by
  simp [ViewData.totalPages, ViewData.mathCeilDiv, ViewData.rowsPerPage]

theorem paginatedData_length {α : Type} (d : UploadedDataset α) (p : Int) :
    (ViewData.paginatedData (some d) p).length =
      min (ViewData.relIndex d.data.length ((p - 1) * 20 + 20) -
            ViewData.relIndex d.data.length ((p - 1) * 20))
        (d.data.length - ViewData.relIndex d.data.length ((p - 1) * 20)) := by
  simp [ViewData.paginatedData, slice_length, ViewData.startIdx, ViewData.endIdx,
    ViewData.rowsPerPage]

theorem lastPage_length {α : Type} (d : UploadedDataset α) (h : 0 < d.data.length) :
    (ViewData.paginatedData (some d) (ViewData.totalPages (some d))).length =
      if d.data.length % 20 = 0 then 20 else d.data.length % 20 := by
  rw [paginatedData_length, totalPages_some]
  generalize d.data.length = n at h ⊢
  have h1 : 20 * ((n + 19) / 20) ≤ n + 19 := Nat.mul_div_le _ _
  have h2 : n + 19 < 20 * ((n + 19) / 20) + 20 := by
    have := Nat.lt_div_mul_add (a := n + 19) (b := 20) (by norm_num)
    omega
  generalize (n + 19) / 20 = q at h1 h2 ⊢
  unfold ViewData.relIndex
  split_ifs <;> omega

theorem firstPage_eq_take {α : Type} (d : UploadedDataset α) :
    ViewData.paginatedData (some d) 1 = d.data.take 20 := by
  simp [ViewData.paginatedData, ViewData.slice, ViewData.startIdx, ViewData.endIdx,
    ViewData.rowsPerPage, ViewData.relIndex]

/-- C4 as stated fails on the empty dataset: there `R mod 20 = 0`, the page count is 0
and the slice for page 0 (as for every page) is empty, not 20 rows long. -/
theorem lastPage_length_empty_dataset :
    ViewData.totalPages (some (ViewData.datasetOf ([] : List JsVal))) = 0 ∧
    ([] : List JsVal).length % 20 = 0 ∧
    (ViewData.paginatedData (some (ViewData.datasetOf ([] : List JsVal)))
      (ViewData.totalPages (some (ViewData.datasetOf ([] : List JsVal))))).length = 0 ∧
    ¬ (∀ d : UploadedDataset JsVal,
        (ViewData.paginatedData (some d) (ViewData.totalPages (some d))).length =
          if d.data.length % 20 = 0 then 20 else d.data.length % 20) := by
  refine ⟨by decide, by decide, by decide, ?_⟩
  intro h
  exact absurd (h (ViewData.datasetOf [])) (by decide)

/-- C4, amended: for every dataset of `R` rows, `totalPages` is the ceiling of `R / 20`
and the slice for page 1 starts at index 0 (it is the first 20 rows); when `R ≥ 1` the
slice for the last page has length `R mod 20`, or 20 when `R mod 20 = 0`; when `R = 0`
there are 0 pages and every slice is empty. -/
theorem pagination_counts {α : Type} (d : UploadedDataset α) :
    ViewData.totalPages (some d) = ⌈(d.data.length : ℚ) / 20⌉ ∧
    ViewData.startIdx 1 = 0 ∧
    ViewData.paginatedData (some d) 1 = d.data.take 20 ∧
    (0 < d.data.length →
      (ViewData.paginatedData (some d) (ViewData.totalPages (some d))).length =
        if d.data.length % 20 = 0 then 20 else d.data.length % 20) ∧
    (d.data.length = 0 →
      ViewData.totalPages (some d) = 0 ∧ ∀ p, ViewData.paginatedData (some d) p = []) := by
  refine ⟨mathCeilDiv_eq_ceil _, by decide, firstPage_eq_take d, lastPage_length d, ?_⟩
  intro h
  refine ⟨by simp [totalPages_some, h], fun p => ?_⟩
  rw [← List.length_eq_zero, paginatedData_length, h]
  simp

/-- The amended C4 at 45 rows (three pages, the last of 5 rows), at 40 rows (two pages,
the last of 20 rows) and at no row. -/
theorem pagination_counts_witness :
    (ViewData.paginatedData (some (ViewData.datasetOf (List.range 45)))
      (ViewData.totalPages (some (ViewData.datasetOf (List.range 45))))).length = 5 ∧
    (ViewData.paginatedData (some (ViewData.datasetOf (List.range 40)))
      (ViewData.totalPages (some (ViewData.datasetOf (List.range 40))))).length = 20 ∧
    ViewData.paginatedData (some (ViewData.datasetOf ([] : List Nat))) 1 = [] :=
  ⟨((pagination_counts (ViewData.datasetOf (List.range 45))).2.2.2.1 (by decide)).trans
      (by decide),
   ((pagination_counts (ViewData.datasetOf (List.range 40))).2.2.2.1 (by decide)).trans
      (by decide),
   (pagination_counts (ViewData.datasetOf ([] : List Nat))).2.2.2.2 rfl |>.2 1⟩

/-! ### Page controls of the raw data viewer -/

theorem applyAction_range (tp p : Int) (a : ViewData.PageAction) (h1 : 1 ≤ p) (h2 : p ≤ tp) :
    1 ≤ ViewData.applyAction tp p a ∧ ViewData.applyAction tp p a ≤ tp := by
  cases a
  · simp only [ViewData.applyAction, ViewData.onPrevious]
    omega
  · simp only [ViewData.applyAction, ViewData.onNext]
    omega

theorem applyActions_range (tp : Int) (as : List ViewData.PageAction) :
    ∀ p : Int, 1 ≤ p → p ≤ tp →
      1 ≤ ViewData.applyActions tp p as ∧ ViewData.applyActions tp p as ≤ tp := by
  induction as with
  | nil => intro p h1 h2; exact ⟨h1, h2⟩
  | cons a as ih =>
    intro p h1 h2
    have h := applyAction_range tp p a h1 h2
    simpa [ViewData.applyActions] using ih _ h.1 h.2

/-- C10: for every dataset of `R` rows and every page `p` with `1 ≤ p ≤ ceil(R/20)`, the
Previous handler yields `max(1, p - 1)` and the Next handler `min(ceil(R/20), p + 1)`; both
results, and the page after any sequence of Previous and Next clicks, lie in
`[1, ceil(R/20)]`; Previous is disabled exactly when `p = 1` and Next exactly when
`p = ceil(R/20)`. -/
theorem page_controls_clamped {α : Type} (d : UploadedDataset α) (p : Int)
    (h1 : 1 ≤ p) (h2 : p ≤ ⌈(d.data.length : ℚ) / 20⌉) :
    ViewData.totalPages (some d) = ⌈(d.data.length : ℚ) / 20⌉ ∧
    ViewData.onPrevious p = max 1 (p - 1) ∧
    ViewData.onNext (ViewData.totalPages (some d)) p = min ⌈(d.data.length : ℚ) / 20⌉ (p + 1) ∧
    (1 ≤ ViewData.onPrevious p ∧ ViewData.onPrevious p ≤ ⌈(d.data.length : ℚ) / 20⌉) ∧
    (1 ≤ ViewData.onNext (ViewData.totalPages (some d)) p ∧
      ViewData.onNext (ViewData.totalPages (some d)) p ≤ ⌈(d.data.length : ℚ) / 20⌉) ∧
    (∀ as : List ViewData.PageAction,
      1 ≤ ViewData.applyActions (ViewData.totalPages (some d)) p as ∧
      ViewData.applyActions (ViewData.totalPages (some d)) p as ≤ ⌈(d.data.length : ℚ) / 20⌉) ∧
    (ViewData.previousDisabled p = true ↔ p = 1) ∧
    (ViewData.nextDisabled (ViewData.totalPages (some d)) p = true ↔
      p = ⌈(d.data.length : ℚ) / 20⌉) := by
  have htp : ViewData.totalPages (some d) = ⌈(d.data.length : ℚ) / 20⌉ :=
    mathCeilDiv_eq_ceil _
  rw [htp]
  generalize ⌈(d.data.length : ℚ) / 20⌉ = tp at h2 ⊢
  refine ⟨rfl, rfl, rfl, ?_, ?_, fun as => applyActions_range tp as p h1 h2, ?_, ?_⟩
  · exact applyAction_range tp p .previous h1 h2
  · exact applyAction_range tp p .next h1 h2
  · simp [ViewData.previousDisabled]
  · simp [ViewData.nextDisabled]

/-- C10 at 45 rows (three pages): from page 2, Next three times and then Previous lands
on page 2; Previous is disabled on page 1 and Next on page 3. -/
theorem page_controls_clamped_witness :
    ViewData.applyActions (ViewData.totalPages (some (ViewData.datasetOf (List.range 45)))) 2
      [.next, .next, .next, .previous] = 2 ∧
    ViewData.previousDisabled 1 = true ∧
    ViewData.nextDisabled (ViewData.totalPages (some (ViewData.datasetOf (List.range 45)))) 3
      = true :=
  have hceil : ⌈((ViewData.datasetOf (List.range 45)).data.length : ℚ) / 20⌉ = 3 :=
    (mathCeilDiv_eq_ceil _).symm.trans (by decide)
  ⟨by decide,
   (page_controls_clamped (ViewData.datasetOf (List.range 45)) 1 (by decide)
      (by rw [hceil]; decide)).2.2.2.2.2.2.1.mpr rfl,
   (page_controls_clamped (ViewData.datasetOf (List.range 45)) 3 (by decide)
      (by rw [hceil])).2.2.2.2.2.2.2.mpr hceil.symm⟩

/-! ### Dashboard -/

/-- C5 as stated fails: when the stats request fails while the other two would succeed,
neither of them is issued and nothing is stored. -/
theorem loadDashboardData_stops_at_first_failure :
    loadDashboardData (.error .rejected) (.ok (some [.ref 1])) (.ok (.ref 2)) =
      [statsRequest, .consoleError "Failed to load dashboard data:"] ∧
    issuesRequest ∉ loadDashboardData (.error .rejected) (.ok (some [.ref 1])) (.ok (.ref 2)) ∧
    trendsRequest ∉ loadDashboardData (.error .rejected) (.ok (some [.ref 1])) (.ok (.ref 2)) ∧
    DashState.init.afterLoad (.error .rejected) (.ok (some [.ref 1])) (.ok (.ref 2)) =
      DashState.init := by
  decide

/-- C5, amended: `loadDashboardData` makes the three requests one after another in one
`try` block. The stats request is always issued, the needs-review request exactly when the
stats request succeeded, and the trends request exactly when both earlier requests
succeeded. The answer of every request that is issued and succeeds is stored; the state of
a request that is not issued, or fails, stays as it was. A failure is logged, once, and no
notification is shown. -/
theorem loadDashboardData_sequential (statsRes : Except JsError JsVal)
    (issuesRes : Except JsError (Option (List JsVal))) (trendsRes : Except JsError JsVal)
    (st : DashState) :
    statsRequest ∈ loadDashboardData statsRes issuesRes trendsRes ∧
    (issuesRequest ∈ loadDashboardData statsRes issuesRes trendsRes ↔
      succeeded statsRes = true) ∧
    (trendsRequest ∈ loadDashboardData statsRes issuesRes trendsRes ↔
      (succeeded statsRes = true ∧ succeeded issuesRes = true)) ∧
    (st.afterLoad statsRes issuesRes trendsRes).stats =
      (match statsRes with
       | .ok stats => stats
       | .error _ => st.stats) ∧
    (st.afterLoad statsRes issuesRes trendsRes).recentIssues =
      (match statsRes, issuesRes with
       | .ok _, .ok issues => issues.getD []
       | _, _ => st.recentIssues) ∧
    (st.afterLoad statsRes issuesRes trendsRes).trendData =
      (match statsRes, issuesRes, trendsRes with
       | .ok _, .ok _, .ok trends => some trends
       | _, _, _ => st.trendData) ∧
    (loadDashboardData statsRes issuesRes trendsRes).countP DashEffect.isAlert = 0 ∧
    (loadDashboardData statsRes issuesRes trendsRes).countP DashEffect.isLog =
      (if succeeded statsRes && succeeded issuesRes && succeeded trendsRes then 0 else 1) ∧
    (loadDashboardData statsRes issuesRes trendsRes).countP DashEffect.isRequest =
      (if succeeded statsRes then (if succeeded issuesRes then 3 else 2) else 1) := by
  have e21 : issuesRequest ≠ statsRequest := by decide
  have e31 : trendsRequest ≠ statsRequest := by decide
  have e32 : trendsRequest ≠ issuesRequest := by decide
  have c1 : ∀ m, issuesRequest ≠ DashEffect.consoleError m := fun m h =>
    DashEffect.noConfusion h
  have c2 : ∀ m, trendsRequest ≠ DashEffect.consoleError m := fun m h =>
    DashEffect.noConfusion h
  have s2 : ∀ x, trendsRequest ≠ DashEffect.setStats x := fun x h => DashEffect.noConfusion h
  rcases statsRes with e1 | stats
  · refine ⟨List.mem_cons_self _ _, ?_, ?_, rfl, rfl, rfl, rfl, rfl, rfl⟩
    · simp only [loadDashboardData, List.mem_cons, List.mem_singleton, List.not_mem_nil,
        e21, c1, succeeded, or_self, Bool.false_eq_true]
    · simp only [loadDashboardData, List.mem_cons, List.mem_singleton, List.not_mem_nil,
        e31, c2, succeeded, or_self, Bool.false_eq_true, false_and]
  · rcases issuesRes with e2 | issues
    · refine ⟨List.mem_cons_self _ _, ?_, ?_, rfl, rfl, rfl, rfl, rfl, rfl⟩
      · simp only [loadDashboardData, List.mem_cons, true_or, or_true, succeeded]
      · simp only [loadDashboardData, List.mem_cons, List.mem_singleton, List.not_mem_nil,
          e31, e32, c2, s2, succeeded, or_self, Bool.false_eq_true, and_false]
    · rcases trendsRes with e3 | trends
      · refine ⟨List.mem_cons_self _ _, ?_, ?_, rfl, rfl, rfl, rfl, rfl, rfl⟩
        · simp only [loadDashboardData, List.mem_cons, true_or, or_true, succeeded]
        · simp only [loadDashboardData, List.mem_cons, true_or, or_true, succeeded, and_self]
      · refine ⟨List.mem_cons_self _ _, ?_, ?_, rfl, rfl, rfl, rfl, rfl, rfl⟩
        · simp only [loadDashboardData, List.mem_cons, true_or, or_true, succeeded]
        · simp only [loadDashboardData, List.mem_cons, true_or, or_true, succeeded, and_self]

/-- The amended C5 where the needs-review request fails: the stats are stored, the trends
request is not issued, and the failure is logged once. -/
theorem loadDashboardData_sequential_witness :
    trendsRequest ∉ loadDashboardData (.ok (.ref 1)) (.error .rejected) (.ok (.ref 2)) ∧
    (DashState.init.afterLoad (.ok (.ref 1)) (.error .rejected) (.ok (.ref 2))).stats = .ref 1 ∧
    (loadDashboardData (.ok (.ref 1)) (.error .rejected) (.ok (.ref 2))).countP
      DashEffect.isLog = 1 :=
  have h := loadDashboardData_sequential (.ok (.ref 1)) (.error .rejected) (.ok (.ref 2))
    DashState.init
  ⟨fun hm => absurd (h.2.2.1.mp hm).2 (by decide), h.2.2.2.1, h.2.2.2.2.2.2.2.1⟩


/-! ### Accept and reject -/

/-- C11: for `handleAccept` and for `handleReject`, the handler navigates to `/validation`
exactly when its PUT succeeds. On success it does, in this order, the PUT, one success
notification and the navigation; on failure it does the PUT and one failure notification,
and the route stays. The loaded comparison data is never changed. -/
theorem accept_reject_navigation (id : JsString) (res : Except JsError Unit)
    (st : CompState) :
    ((handleAccept id res).filter CompEffect.isNavigate =
        (if succeeded res then [.navigate (lit "/validation")] else []) ∧
      (handleReject id res).filter CompEffect.isNavigate =
        (if succeeded res then [.navigate (lit "/validation")] else [])) ∧
    (succeeded res = true →
      handleAccept id res =
        [.axiosPut (lit "/api/validation/" ++ id ++ lit "/accept"),
         .alert (lit "Changes accepted!"), .navigate (lit "/validation")] ∧
      handleReject id res =
        [.axiosPut (lit "/api/validation/" ++ id ++ lit "/reject"),
         .alert (lit "Changes rejected!"), .navigate (lit "/validation")] ∧
      (st.perform (handleAccept id res)).route = lit "/validation" ∧
      (st.perform (handleReject id res)).route = lit "/validation") ∧
    (succeeded res = false →
      handleAccept id res =
        [.axiosPut (lit "/api/validation/" ++ id ++ lit "/accept"),
         .alert (lit "Failed to accept changes")] ∧
      handleReject id res =
        [.axiosPut (lit "/api/validation/" ++ id ++ lit "/reject"),
         .alert (lit "Failed to reject changes")] ∧
      (st.perform (handleAccept id res)).route = st.route ∧
      (st.perform (handleReject id res)).route = st.route) ∧
    ((handleAccept id res).countP CompEffect.isAlert = 1 ∧
      (handleReject id res).countP CompEffect.isAlert = 1) ∧
    ((st.perform (handleAccept id res)).data = st.data ∧
      (st.perform (handleReject id res)).data = st.data) := by
  rcases res with e | u
  · refine ⟨⟨rfl, rfl⟩, ?_, ?_, ⟨rfl, rfl⟩, ⟨rfl, rfl⟩⟩
    · intro h; simp [succeeded] at h
    · intro _; exact ⟨rfl, rfl, rfl, rfl⟩
  · refine ⟨⟨rfl, rfl⟩, ?_, ?_, ⟨rfl, rfl⟩, ⟨rfl, rfl⟩⟩
    · intro _; exact ⟨rfl, rfl, rfl, rfl⟩
    · intro h; simp [succeeded] at h

/-- C11 at provider 42: an accept that fails (as on an HTTP 500) leaves the view on its
route, and a reject that succeeds navigates. -/
theorem accept_reject_navigation_witness :
    (({ data := some caseOnlyRecord, route := lit "/comparison/42" } : CompState).perform
        (handleAccept (lit "42") (.error .rejected))).route = lit "/comparison/42" ∧
    (({ data := some caseOnlyRecord, route := lit "/comparison/42" } : CompState).perform
        (handleReject (lit "42") (.ok ()))).route = lit "/validation" :=
  ⟨((accept_reject_navigation (lit "42") (.error .rejected)
      { data := some caseOnlyRecord, route := lit "/comparison/42" }).2.2.1 rfl).2.2.1,
   ((accept_reject_navigation (lit "42") (.ok ())
      { data := some caseOnlyRecord, route := lit "/comparison/42" }).2.1 rfl).2.2.2⟩

/-! ### Status list query -/

/-- C12: for every filter, search string and page, `loadProviders` makes one request, to
`/api/validation/status`; in the query the `status` parameter is absent exactly when the
filter is `All` and otherwise is the filter verbatim, `search` is the search string, `skip`
is `(page - 1) * 10` and `limit` is 10. -/
theorem loadProviders_query (statusFilter search : JsString) (page : Int)
    (res : Except JsError (Option (List JsVal))) :
    (∃ rest, loadProviders statusFilter search page res =
        .axiosGet (lit "/api/validation/status")
          (loadProvidersParams statusFilter search page) :: rest ∧
        ∀ url params, TableEffect.axiosGet url params ∉ rest) ∧
    (((sentParams (loadProvidersParams statusFilter search page)).lookup (lit "status") = none) ↔
      statusFilter = lit "All") ∧
    (statusFilter ≠ lit "All" →
      (sentParams (loadProvidersParams statusFilter search page)).lookup (lit "status")
        = some (.str statusFilter)) ∧
    (sentParams (loadProvidersParams statusFilter search page)).lookup (lit "search")
      = some (.str search) ∧
    (sentParams (loadProvidersParams statusFilter search page)).lookup (lit "skip")
      = some (.num ((page - 1) * 10)) ∧
    (sentParams (loadProvidersParams statusFilter search page)).lookup (lit "limit")
      = some (.num 10) := by
  refine ⟨?_, ?_⟩
  · rcases res with e | rows
    · exact ⟨_, rfl, by intro url params h; simp at h⟩
    · exact ⟨_, rfl, by intro url params h; simp at h⟩
  · by_cases h : statusFilter = lit "All"
    · subst h
      refine ⟨?_, ?_, ?_, ?_, ?_⟩
      · simp only [iff_true]; rfl
      · intro hne; exact absurd rfl hne
      · rfl
      · rfl
      · rfl
    · have hs : (JsVal.str statusFilter).strictNe (.str (lit "All")) = true := by
        rw [JsVal.strictNe_iff]
        intro he
        exact h (JsVal.str.inj he)
      have hp : loadProvidersParams statusFilter search page =
          { status := .str statusFilter, search := .str search, skip := (page - 1) * 10,
            limit := 10 } := by
        simp [loadProvidersParams, hs]
      rw [hp]
      refine ⟨?_, ?_, ?_, ?_, ?_⟩
      · simp only [h, iff_false]
        intro hn
        exact absurd hn (by simp [sentParams, List.lookup, lit])
      · intro _; rfl
      · rfl
      · rfl
      · rfl

/-- C12 at the filter `All` on page 3 and at the filter `verified` on page 1. -/
theorem loadProviders_query_witness :
    sentParams (loadProvidersParams (lit "All") (lit "smith") 3) =
      [(lit "search", .str (lit "smith")), (lit "skip", .num 20), (lit "limit", .num 10)] ∧
    (sentParams (loadProvidersParams (lit "verified") (lit "") 1)).lookup (lit "status") =
      some (.str (lit "verified")) :=
  ⟨by decide,
   (loadProviders_query (lit "verified") (lit "") 1 (.ok none)).2.2.1 (by decide)⟩

/-! ### Upload view -/

/-- C13: with an empty upload history `startValidation` shows one notification and makes
no request; with a non-empty history it makes exactly one request, the POST to
`/api/validate/start-incremental` whose `upload_id` is the id of the first element, and
what it does is the same whatever the other elements are. -/
theorem startValidation_first_upload (render : JsVal → JsString)
    (res : Except AxiosError JsVal) :
    startValidation render [] res = [.alert (lit "No uploads found!")] ∧
    (startValidation render [] res).countP UploadEffect.isRequest = 0 ∧
    (startValidation render [] res).countP UploadEffect.isAlert = 1 ∧
    (∀ (u : Upload) (us : List Upload),
      (startValidation render (u :: us) res).filter UploadEffect.isRequest =
        [.axiosPost (lit "/api/validate/start-incremental") [(lit "upload_id", u.id)]] ∧
      startValidation render (u :: us) res = startValidation render [u] res) := by
  refine ⟨rfl, rfl, rfl, ?_⟩
  intro u us
  rcases res with e | sessionId
  · exact ⟨rfl, rfl⟩
  · exact ⟨rfl, rfl⟩

/-- C13 at the history `[7, 3]`: the only request carries upload id 7, and on success the
browser is sent to the status page of the session. -/
theorem startValidation_first_upload_witness :
    startValidation renderDecimal [uploadOf 7, uploadOf 3] (.ok (.str (lit "s1"))) =
      [.axiosPost (lit "/api/validate/start-incremental") [(lit "upload_id", .num 7)],
       .setLocation (lit "/validation?session=s1")] ∧
    (startValidation renderDecimal [uploadOf 7, uploadOf 3]
        (.error { detail := .undefined, message := lit "Network Error" })).filter
        UploadEffect.isRequest =
      [.axiosPost (lit "/api/validate/start-incremental") [(lit "upload_id", .num 7)]] :=
  ⟨by decide,
   ((startValidation_first_upload renderDecimal
      (.error { detail := .undefined, message := lit "Network Error" })).2.2.2
      (uploadOf 7) [uploadOf 3]).1⟩

/-- C14: `handleFileUpload`, for any upload type, does nothing at all while no file is
selected (the selection is `null` or `undefined`): no request, no notification, and the
selected file and the history stay as they are. With a file selected it makes exactly one
POST, to `/api/upload/<type>`, with the file in the field `file`. -/
theorem handleFileUpload_guard (type : JsString) (selectedFile : JsVal)
    (postRes : Except AxiosError Unit) (uploadsRes : Except AxiosError (List Upload))
    (st : UploadState) :
    handleFileUpload type .null postRes uploadsRes = [] ∧
    handleFileUpload type .undefined postRes uploadsRes = [] ∧
    (selectedFile.truthy = false →
      handleFileUpload type selectedFile postRes uploadsRes = [] ∧
      (handleFileUpload type selectedFile postRes uploadsRes).countP UploadEffect.isRequest = 0 ∧
      (handleFileUpload type selectedFile postRes uploadsRes).countP UploadEffect.isAlert = 0 ∧
      st.perform (handleFileUpload type selectedFile postRes uploadsRes) = st) ∧
    (selectedFile.truthy = true →
      (handleFileUpload type selectedFile postRes uploadsRes).filter UploadEffect.isPost =
        [.axiosPost (lit "/api/upload/" ++ type) [(lit "file", selectedFile)]]) := by
  refine ⟨rfl, rfl, ?_, ?_⟩
  · intro h
    have e : handleFileUpload type selectedFile postRes uploadsRes = [] := by
      simp [handleFileUpload, h]
    rw [e]
    exact ⟨rfl, rfl, rfl, rfl⟩
  · intro h
    rcases postRes with e | u
    · simp [handleFileUpload, h, List.filter, UploadEffect.isPost]
    · rcases uploadsRes with e2 | us <;>
        simp [handleFileUpload, loadUploads, h, List.filter, UploadEffect.isPost]

/-- C14 for both upload types: nothing happens without a file, and with a file the one
POST goes to the endpoint of the type. -/
theorem handleFileUpload_guard_witness :
    ((⟨[uploadOf 1], .null⟩ : UploadState).perform
        (handleFileUpload (lit "csv") .null (.ok ()) (.ok [uploadOf 2, uploadOf 1]))) =
      ⟨[uploadOf 1], .null⟩ ∧
    (handleFileUpload (lit "pdf") (.ref 9) (.ok ()) (.ok [uploadOf 2, uploadOf 1])).filter
        UploadEffect.isPost = [.axiosPost (lit "/api/upload/pdf") [(lit "file", .ref 9)]] ∧
    (handleFileUpload (lit "csv") (.ref 9)
        (.error { detail := .undefined, message := lit "Network Error" }) (.ok [])).filter
        UploadEffect.isPost = [.axiosPost (lit "/api/upload/csv") [(lit "file", .ref 9)]] :=
  ⟨((handleFileUpload_guard (lit "csv") .null (.ok ()) (.ok [uploadOf 2, uploadOf 1])
      ⟨[uploadOf 1], .null⟩).2.2.1 rfl).2.2.2,
   (handleFileUpload_guard (lit "pdf") (.ref 9) (.ok ()) (.ok [uploadOf 2, uploadOf 1])
      ⟨[], .ref 9⟩).2.2.2 rfl,
   (handleFileUpload_guard (lit "csv") (.ref 9)
      (.error { detail := .undefined, message := lit "Network Error" }) (.ok [])
      ⟨[], .ref 9⟩).2.2.2 rfl⟩

/-! ### Placeholder of the comparison view -/

/-- C15, the code at a record whose phone is missing and whose address is empty: the cell
content is the value itself for every truthy value and the placeholder constant for every
falsy one, but that constant is the three characters `â€”`, not the dash `—` that the
status table and the raw data viewer show. -/
theorem DataPanel_placeholder_is_not_dash :
    (∀ (d e : FieldSet) (hl : JsVal) (f : FieldKey × String),
      (renderField d e hl f).content =
        if (d.get f.1).truthy then d.get f.1 else .str placeholder) ∧
    (DataPanel missingPhoneRecord.original missingPhoneRecord.validated .undefined).map
        Cell.content =
      [.str (lit "Dr. Amy Wong"), .str (lit "â€”"), .str (lit "â€”"), .num 1234567890,
       .str (lit "â€”"), .ref 1] ∧
    placeholder.length = 3 ∧
    placeholder ≠ lit "—" := by
  refine ⟨?_, by decide, by decide, by decide⟩
  intro d e hl f
  rfl

/-! ### Page controls of the status table -/

theorem doubleUlp_of_lt (m : Nat) (h : m < maxExactInt) : doubleUlp 1024 m 1 = 1 := by
  show doubleUlp (1023 + 1) m 1 = 1
  simp [doubleUlp, h]

theorem roundMagnitude_of_lt (m : Nat) (h : m < maxExactInt) : roundMagnitude m = m := by
  simp [roundMagnitude, doubleUlp_of_lt m h, Nat.mod_one]

theorem roundMagnitude_maxExactInt : roundMagnitude maxExactInt = maxExactInt := by
  decide

theorem roundMagnitude_maxExactInt_succ : roundMagnitude (maxExactInt + 1) = maxExactInt := by
  decide

theorem roundToDouble_of_le (n : Int) (h : n.natAbs ≤ maxExactInt) : roundToDouble n = n := by
  have hm : roundMagnitude n.natAbs = n.natAbs := by
    rcases Nat.lt_or_eq_of_le h with hlt | heq
    · exact roundMagnitude_of_lt _ hlt
    · rw [heq]; exact roundMagnitude_maxExactInt
  unfold roundToDouble
  rw [hm]
  split <;> omega

theorem roundToDouble_nonneg (n : Int) (h : 0 ≤ n) : 0 ≤ roundToDouble n := by
  unfold roundToDouble
  rw [if_neg (by omega)]
  exact Int.ofNat_nonneg _

theorem onNext_maxExactInt : StatusTable.onNext maxExactInt = maxExactInt := by
  decide

theorem statusTable_applyAction_range (p : Int) (a : ViewData.PageAction)
    (h1 : 1 ≤ p) (h2 : p ≤ maxExactInt) :
    1 ≤ StatusTable.applyAction p a ∧ StatusTable.applyAction p a ≤ maxExactInt := by
  have hm : (maxExactInt : Int) = 9007199254740992 := rfl
  cases a
  · have hr : roundToDouble (p - 1) = p - 1 := roundToDouble_of_le _ (by omega)
    simp only [StatusTable.applyAction, StatusTable.onPrevious, hr]
    omega
  · rcases lt_or_eq_of_le h2 with hlt | heq
    · have hr : roundToDouble (p + 1) = p + 1 := roundToDouble_of_le _ (by omega)
      simp only [StatusTable.applyAction, StatusTable.onNext, hr]
      omega
    · subst heq
      simp only [StatusTable.applyAction, onNext_maxExactInt]
      omega

theorem statusTable_applyActions_range (as : List ViewData.PageAction) :
    ∀ p : Int, 1 ≤ p → p ≤ maxExactInt →
      1 ≤ StatusTable.applyActions p as ∧ StatusTable.applyActions p as ≤ maxExactInt := by
  induction as with
  | nil => intro p h1 h2; exact ⟨h1, h2⟩
  | cons a as ih =>
    intro p h1 h2
    have h := statusTable_applyAction_range p a h1 h2
    simpa [StatusTable.applyActions] using ih _ h.1 h.2

theorem statusTable_next_replicate (k : Nat) :
    ∀ p : Int, 1 ≤ p → p + k ≤ maxExactInt →
      StatusTable.applyActions p (List.replicate k .next) = p + k := by
  induction k with
  | zero => intro p _ _; simp [StatusTable.applyActions]
  | succ k ih =>
    intro p h1 h2
    have hm : (maxExactInt : Int) = 9007199254740992 := rfl
    have hr : roundToDouble (p + 1) = p + 1 := roundToDouble_of_le _ (by push_cast at h2; omega)
    have := ih (p + 1) (by omega) (by push_cast at h2 ⊢; omega)
    simp only [StatusTable.applyActions] at this ⊢
    simp only [List.replicate_succ, List.foldl_cons, StatusTable.applyAction,
      StatusTable.onNext, hr, this]
    push_cast
    ring

/-- C16 as stated fails: the page is a JavaScript double, and at page `2 ^ 53` the Next
handler `p => p + 1` yields `2 ^ 53` again, not `2 ^ 53 + 1`; so page `2 ^ 53 + 1` is not
reached from page 1 by any sequence of clicks. -/
theorem statusTable_next_stalls :
    StatusTable.onNext 9007199254740992 = 9007199254740992 ∧
    StatusTable.onNext 9007199254740992 ≠ 9007199254740992 + 1 ∧
    ¬ ∃ as : List ViewData.PageAction, StatusTable.applyActions 1 as = 9007199254740993 := by
  refine ⟨by decide, by decide, ?_⟩
  rintro ⟨as, h⟩
  have hr := (statusTable_applyActions_range as 1 (le_refl 1) (by decide)).2
  rw [h] at hr
  exact absurd hr (by decide)

/-- C16, amended: from page 1, after any sequence of Previous and Next clicks the page is
at least 1 (and at most `2 ^ 53`) and the `skip` sent for it is not negative; on such a
page Previous yields `max(1, p - 1)` and is disabled exactly when `p = 1`. Next has no
bound check: it yields `p + 1` on every page below `2 ^ 53`, and `2 ^ 53` on page `2 ^ 53`,
where the double stops growing. The pages reached from page 1 are exactly those `n` with
`1 ≤ n ≤ 2 ^ 53`. Below the rounding range the `skip` is the `(page - 1) * 10` of the
query. -/
theorem statusTable_page_controls (statusFilter search : JsString) :
    (∀ as : List ViewData.PageAction,
      1 ≤ StatusTable.applyActions 1 as ∧
      StatusTable.applyActions 1 as ≤ 9007199254740992 ∧
      0 ≤ StatusTable.skip (StatusTable.applyActions 1 as)) ∧
    (∀ p : Int, 1 ≤ p → p ≤ 9007199254740992 →
      StatusTable.onPrevious p = max 1 (p - 1) ∧
      (StatusTable.previousDisabled p = true ↔ p = 1) ∧
      (p < 9007199254740992 → StatusTable.onNext p = p + 1) ∧
      ((p - 1) * 10 ≤ 9007199254740992 →
        StatusTable.skip p = (loadProvidersParams statusFilter search p).skip)) ∧
    StatusTable.onNext 9007199254740992 = 9007199254740992 ∧
    (∀ n : Int, (∃ as : List ViewData.PageAction, StatusTable.applyActions 1 as = n) ↔
      (1 ≤ n ∧ n ≤ 9007199254740992)) := by
  have hm : (maxExactInt : Int) = 9007199254740992 := rfl
  refine ⟨fun as => ?_, fun p hp1 hp2 => ?_, by decide, fun n => ?_⟩
  · have h := statusTable_applyActions_range as 1 (le_refl 1) (by decide)
    rw [hm] at h
    refine ⟨h.1, h.2, ?_⟩
    unfold StatusTable.skip
    rw [roundToDouble_of_le (StatusTable.applyActions 1 as - 1) (by omega)]
    exact roundToDouble_nonneg _ (by omega)
  · have hr : roundToDouble (p - 1) = p - 1 := roundToDouble_of_le _ (by omega)
    refine ⟨by simp only [StatusTable.onPrevious, hr],
      by simp [StatusTable.previousDisabled], ?_, ?_⟩
    · intro hlt
      exact roundToDouble_of_le _ (by omega)
    · intro hs
      simp only [StatusTable.skip, hr, loadProvidersParams]
      exact roundToDouble_of_le _ (by omega)
  · constructor
    · rintro ⟨as, rfl⟩
      have h := statusTable_applyActions_range as 1 (le_refl 1) (by decide)
      rw [hm] at h
      exact h
    · rintro ⟨h1, h2⟩
      refine ⟨List.replicate (n - 1).toNat .next, ?_⟩
      rw [statusTable_next_replicate _ 1 (le_refl 1) (by omega)]
      omega

/-- The amended C16 at page 4, reached by three Next clicks, at a Previous click on
page 1, and at the skip of page 3. -/
theorem statusTable_page_controls_witness :
    (∃ as : List ViewData.PageAction, StatusTable.applyActions 1 as = 4) ∧
    StatusTable.onPrevious 1 = 1 ∧
    StatusTable.onNext 3 = 4 ∧
    StatusTable.skip 3 = 20 :=
  ⟨((statusTable_page_controls (lit "All") []).2.2.2 4).mpr ⟨by decide, by decide⟩,
   (((statusTable_page_controls (lit "All") []).2.1 1 (by decide) (by decide)).1).trans
     (by decide),
   (((statusTable_page_controls (lit "All") []).2.1 3 (by decide) (by decide)).2.2.1
     (by decide)).trans (by decide),
   (((statusTable_page_controls (lit "All") []).2.1 3 (by decide) (by decide)).2.2.2
     (by decide)).trans (by decide)⟩

/-! ### Pages of the raw data viewer -/

theorem slice_of_nat {α : Type} (xs : List α) (a b : Nat) :
    ViewData.slice xs (a : Int) (b : Int) = (xs.drop a).take (b - a) := by
  have ha : ViewData.relIndex xs.length (a : Int) = min a xs.length := by
    simp [ViewData.relIndex]
  have hb : ViewData.relIndex xs.length (b : Int) = min b xs.length := by
    simp [ViewData.relIndex]
  simp only [ViewData.slice, ha, hb]
  by_cases h : a ≤ xs.length
  · rw [Nat.min_eq_left h, List.take_eq_take, List.length_drop]
    omega
  · have h1 : xs.drop a = [] := List.drop_eq_nil_of_le (by omega)
    have h2 : xs.drop (min a xs.length) = [] := List.drop_eq_nil_of_le (by omega)
    rw [h1, h2]
    simp

theorem paginatedData_succ {α : Type} (d : UploadedDataset α) (i : Nat) :
    ViewData.paginatedData (some d) ((i : Int) + 1) = (d.data.drop (20 * i)).take 20 := by
  have e1 : ViewData.startIdx ((i : Int) + 1) = ((20 * i : Nat) : Int) := by
    simp only [ViewData.startIdx, ViewData.rowsPerPage]; push_cast; ring
  have e2 : ViewData.endIdx ((i : Int) + 1) = ((20 * i + 20 : Nat) : Int) := by
    simp only [ViewData.endIdx, e1, ViewData.rowsPerPage]; push_cast; ring
  simp only [ViewData.paginatedData, e1, e2, slice_of_nat]
  congr 1
  omega

theorem chunks_flatMap {α : Type} (n : Nat) :
    ∀ xs : List α, xs.length ≤ 20 * n →
      (List.range n).flatMap (fun i => (xs.drop (20 * i)).take 20) = xs := by
  induction n with
  | zero =>
    intro xs h
    have : xs = [] := List.length_eq_zero.mp (by omega)
    simp [this]
  | succ n ih =>
    intro xs h
    rw [List.range_succ_eq_map, List.flatMap_cons, List.flatMap_map]
    have hd : (fun i => ((xs.drop (20 * Nat.succ i)).take 20)) =
        (fun i => (((xs.drop 20).drop (20 * i)).take 20)) := by
      funext i
      have e : 20 + 20 * i = 20 * Nat.succ i := by omega
      rw [List.drop_drop, e]
    rw [hd, ih (xs.drop 20) (by rw [List.length_drop]; omega)]
    simp

/-- C17: for every dataset, the slices of pages `1, 2, ..., ceil(R/20)` concatenated in
order are exactly the rows of the dataset, and every page before the last one holds
exactly 20 rows. -/
theorem pages_partition {α : Type} (d : UploadedDataset α) :
    (ViewData.allPages (some d)).flatten = d.data ∧
    ((ViewData.allPages (some d)).length : Int) = ⌈(d.data.length : ℚ) / 20⌉ ∧
    (∀ p : Int, 1 ≤ p → p < ViewData.totalPages (some d) →
      (ViewData.paginatedData (some d) p).length = 20) := by
  have h1 : 20 * ((d.data.length + 19) / 20) ≤ d.data.length + 19 := Nat.mul_div_le _ _
  have h2 : d.data.length + 19 < 20 * ((d.data.length + 19) / 20) + 20 := by
    have := Nat.lt_div_mul_add (a := d.data.length + 19) (b := 20) (by norm_num)
    omega
  have hq : (ViewData.totalPages (some d)).toNat = (d.data.length + 19) / 20 := by
    rw [totalPages_some]
    exact Int.toNat_ofNat _
  have hall : ViewData.allPages (some d) =
      (List.range ((d.data.length + 19) / 20)).map
        (fun i => (d.data.drop (20 * i)).take 20) := by
    unfold ViewData.allPages
    rw [hq]
    exact List.map_congr_left (fun i _ => paginatedData_succ d i)
  refine ⟨?_, ?_, ?_⟩
  · rw [hall, ← List.flatMap_def]
    exact chunks_flatMap _ d.data (by omega)
  · rw [← mathCeilDiv_eq_ceil, hall, List.length_map, List.length_range]
    simp [ViewData.mathCeilDiv, ViewData.rowsPerPage]
  · intro p hp1 hp2
    rw [totalPages_some] at hp2
    rw [paginatedData_length]
    generalize d.data.length = n at h1 h2 hp2 ⊢
    generalize (n + 19) / 20 = q at h1 h2 hp2 ⊢
    unfold ViewData.relIndex
    split_ifs <;> omega

/-- C17 at 45 rows: three pages of 20, 20 and 5 rows that concatenate to the rows. -/
theorem pages_partition_witness :
    (ViewData.allPages (some (ViewData.datasetOf (List.range 45)))).map List.length
      = [20, 20, 5] ∧
    (ViewData.allPages (some (ViewData.datasetOf (List.range 45)))).flatten = List.range 45 ∧
    (ViewData.paginatedData (some (ViewData.datasetOf (List.range 45))) 2).length = 20 :=
  ⟨by decide, (pages_partition (ViewData.datasetOf (List.range 45))).1,
   (pages_partition (ViewData.datasetOf (List.range 45))).2.2 2 (by decide) (by decide)⟩

/-! ### Banners of the status view -/

theorem tick_pollingInProgress (sid : JsString) (res : Except JsError ProgressSnapshot)
    (st : PollState) (n : Nat) :
    (({ st with due := n }).perform (pollProgress sid res)).pollingInProgress := by
  rcases res with e | data
  · rw [pollProgress_failed, perform_failedTick]
    intro h
    exact absurd h Bool.false_ne_true
  · by_cases hs : data.status = .str (lit "in_progress")
    · rw [pollProgress_inProgress sid data hs, perform_inProgressTick]
      intro _ snapshot hsnap
      cases hsnap
      exact hs
    · rw [pollProgress_done sid data hs, perform_finalTick]
      intro h
      exact absurd h Bool.false_ne_true

theorem runTicks_pollingInProgress (sid : JsString)
    (answers : List (Except JsError ProgressSnapshot)) :
    ∀ st : PollState, st.pollingInProgress → (runTicks sid answers st).pollingInProgress := by
  induction answers with
  | nil => intro st h; exact h
  | cons res rest ih =>
    intro st h
    unfold runTicks
    split
    · exact h
    · exact ih _ (tick_pollingInProgress sid res st _)

theorem mountPolling_pollingInProgress (session : Option JsString) :
    (mountPolling session PollState.init).pollingInProgress := by
  have hn : (mountPolling session PollState.init).validationProgress = none := by
    cases session with
    | none => rfl
    | some id =>
      cases id with
      | nil => rfl
      | cons c cs => rfl
  intro _ snapshot hsnap
  rw [hn] at hsnap
  cases hsnap

/-- C18: in every state the status view reaches from its mount (with or without a session
id) through any answers of the progress endpoint, successful or failed, the banner
"Validation In Progress" and the banner "Validation Complete" are not both shown, and
whenever `isPolling` is set and a snapshot is stored, the snapshot's status is
`in_progress`. States are taken after each tick has run to its end. -/
theorem banners_exclusive (session : Option JsString) (sid : JsString)
    (answers : List (Except JsError ProgressSnapshot)) :
    ¬ (progressBannerShown (runTicks sid answers (mountPolling session PollState.init)) = true ∧
        completeBannerShown (runTicks sid answers (mountPolling session PollState.init)) = true) ∧
    ((runTicks sid answers (mountPolling session PollState.init)).isPolling = true →
      ∀ snapshot,
        (runTicks sid answers (mountPolling session PollState.init)).validationProgress
          = some snapshot →
        snapshot.status = .str (lit "in_progress")) ∧
    (progressBannerShown (runTicks sid answers (mountPolling session PollState.init)) = true ↔
      ((runTicks sid answers (mountPolling session PollState.init)).isPolling = true ∧
        (runTicks sid answers (mountPolling session PollState.init)).validationProgress
          ≠ none)) ∧
    (completeBannerShown (runTicks sid answers (mountPolling session PollState.init)) = true ↔
      ∃ snapshot,
        (runTicks sid answers (mountPolling session PollState.init)).validationProgress
          = some snapshot ∧ snapshot.status = .str (lit "completed")) := by
  have hinv := runTicks_pollingInProgress sid answers _ (mountPolling_pollingInProgress session)
  generalize runTicks sid answers (mountPolling session PollState.init) = st at hinv ⊢
  have hprog : progressBannerShown st = true ↔
      (st.isPolling = true ∧ st.validationProgress ≠ none) := by
    simp [progressBannerShown, Option.isSome_iff_ne_none]
  have hcomp : completeBannerShown st = true ↔
      ∃ snapshot, st.validationProgress = some snapshot ∧
        snapshot.status = .str (lit "completed") := by
    unfold completeBannerShown
    cases hv : st.validationProgress with
    | none => simp
    | some s => simp [JsVal.strictEq_iff]
  refine ⟨?_, hinv, hprog, hcomp⟩
  rintro ⟨hp, hc⟩
  obtain ⟨snapshot, hsome, hstatus⟩ := hcomp.mp hc
  have := hinv (hprog.mp hp).1 snapshot hsome
  rw [hstatus] at this
  exact absurd this (by decide)

/-- C18 along one session: after an answer in progress only the progress banner is shown,
after the completed answer only the completion banner, and after a failed fetch neither. -/
theorem banners_exclusive_witness :
    (progressBannerShown (runPoller (lit "s1") [.ok (snapshotOf (.str (lit "in_progress")))])
        = true ∧
      completeBannerShown (runPoller (lit "s1") [.ok (snapshotOf (.str (lit "in_progress")))])
        = false) ∧
    (progressBannerShown (runPoller (lit "s1")
        [.ok (snapshotOf (.str (lit "in_progress"))), .ok (snapshotOf (.str (lit "completed")))])
        = false ∧
      completeBannerShown (runPoller (lit "s1")
        [.ok (snapshotOf (.str (lit "in_progress"))), .ok (snapshotOf (.str (lit "completed")))])
        = true) ∧
    ¬ (progressBannerShown (runPoller (lit "s1")
          [.ok (snapshotOf (.str (lit "in_progress"))), .error .rejected]) = true ∧
        completeBannerShown (runPoller (lit "s1")
          [.ok (snapshotOf (.str (lit "in_progress"))), .error .rejected]) = true) :=
  ⟨by decide, by decide,
   (banners_exclusive (some (lit "s1")) (lit "s1")
      [.ok (snapshotOf (.str (lit "in_progress"))), .error .rejected]).1⟩

/-! ### Confidence cell -/

theorem append_percent_ne_dash (x : JsString) : x ++ lit "%" ≠ lit "—" := by
  cases x with
  | nil => decide
  | cons c cs =>
    intro h
    have hl := congrArg List.length h
    simp [lit] at hl

/-- C19: the confidence cell shows the score followed by `%` exactly when the score is
truthy, that is, for a number, present and not zero; a score of exactly 0 gets the dash
`—`, the same cell as an absent score (`undefined` or `null`). -/
theorem confidenceCell_zero_is_dash (render : JsVal → JsString) :
    (∀ score : JsVal,
      (confidenceCell render score = score.toJsString render ++ lit "%" ↔
        score.truthy = true) ∧
      (confidenceCell render score = lit "—" ↔ score.truthy = false)) ∧
    (∀ n : Int,
      ((JsVal.num n).truthy = true ↔ n ≠ 0) ∧
      (confidenceCell render (.num n) = render (.num n) ++ lit "%" ↔ n ≠ 0)) ∧
    confidenceCell render (.num 0) = lit "—" ∧
    confidenceCell render .undefined = lit "—" ∧
    confidenceCell render .null = lit "—" ∧
    confidenceCell render (.num 0) = confidenceCell render .undefined := by
  have hscore : ∀ score : JsVal,
      (confidenceCell render score = score.toJsString render ++ lit "%" ↔
        score.truthy = true) ∧
      (confidenceCell render score = lit "—" ↔ score.truthy = false) := by
    intro score
    cases ht : score.truthy
    · have e : confidenceCell render score = lit "—" := by simp [confidenceCell, ht]
      rw [e]
      exact ⟨⟨fun h => absurd h.symm (append_percent_ne_dash _), fun h => absurd h (by decide)⟩,
        ⟨fun _ => rfl, fun _ => rfl⟩⟩
    · have e : confidenceCell render score = score.toJsString render ++ lit "%" := by
        simp [confidenceCell, ht]
      rw [e]
      exact ⟨⟨fun _ => rfl, fun _ => rfl⟩,
        ⟨fun h => absurd h (append_percent_ne_dash _), fun h => absurd h (by decide)⟩⟩
  refine ⟨hscore, ?_, rfl, rfl, rfl, rfl⟩
  intro n
  have ht : (JsVal.num n).truthy = true ↔ n ≠ 0 := by simp [JsVal.truthy]
  exact ⟨ht, (hscore (.num n)).1.trans ht⟩

/-- C19 at the scores 87 and 0, with decimal digits as the text of a number. -/
theorem confidenceCell_zero_is_dash_witness :
    confidenceCell renderDecimal (.num 87) = lit "87%" ∧
    confidenceCell renderDecimal (.num 0) = lit "—" ∧
    confidenceCell renderDecimal .undefined = lit "—" :=
  ⟨(((confidenceCell_zero_is_dash renderDecimal).2.1 87).2.mpr (by decide)).trans (by decide),
   (confidenceCell_zero_is_dash renderDecimal).2.2.1,
   (confidenceCell_zero_is_dash renderDecimal).2.2.2.1⟩

end DoctorValidation
